import Mathlib

/-!
Shallow embedding of `modules/http2/h2_bucket_beam.c`: the bucket-beam data
model, the send/receive/close/abort/destroy/wait-empty operations, the
proxy-emitted notification and the byte accounting, together with theorems
checking the specification's claims about them.

Modelling conventions.  APR statuses are an enumeration (`Status.efuel` is a
model-only value returned when the explicit wait oracle runs out; no theorem
relies on it).  The optional mutex installed through the lock hook is the
boolean `hasEnter`; a condition-variable wait consumes one event from an
explicit oracle, either a timeout or a wake carrying the state the other
thread established while we slept.  `SIZEMAX` stands for `(apr_size_t)-1`,
the marker for an indeterminate bucket length; a bucket's `readLen` is the
length a blocking `apr_bucket_read` would materialize for it (reduced
`% SIZEMAX` because a completed read never reports the `-1` marker itself).
Callback invocations are recorded in the ghost lists `consumedDeltas` /
`producedDeltas`, proxies detached by `beam_send_cleanup` in the ghost list
`detached`, and fresh bucket ids for splits come from the ghost counter
`nextId`.  Memory pools are identified by `Option Nat` handles.
-/

namespace H2Beam

/-- The apr_status_t values the beam code produces or tests. -/
inductive Status where
  | success
  | eagain
  | econnaborted
  | timeup
  | eof
  | econnreset
  | enotimpl
  | efuel
  deriving DecidableEq, Repr

/-- apr_read_type_e: APR_BLOCK_READ or APR_NONBLOCK_READ. -/
inductive Block where
  | blocking
  | nonblocking
  deriving DecidableEq, Repr

/-- h2_beam_owner_t: which side's pool owns the beam. -/
inductive Owner where
  | send
  | recv
  deriving DecidableEq, Repr

/-- Bucket kinds distinguished by the transfer code: the three metadata kinds
it recognizes, other metadata, file buckets, and the in-memory kinds the
normalization in `append_bucket` dispatches on. -/
inductive BKind where
  | eos
  | flush
  | error
  | metaOther
  | file
  | heap
  | transient
  | pool
  | unknownK
  deriving DecidableEq, Repr

/-- APR_BUCKET_IS_METADATA. -/
def BKind.isMeta : BKind → Bool
  | .eos => true
  | .flush => true
  | .error => true
  | .metaOther => true
  | _ => false

/-- `(apr_size_t)-1`, the indeterminate-length marker. -/
def SIZEMAX : Nat := 2 ^ 64 - 1

/-- APR_BUCKET_BUFF_SIZE, the small-buffer size used as minimum split size. -/
def APR_BUCKET_BUFF_SIZE : Nat := 8000

/-- A producer-side (red) bucket.  `bid` is its identity (the C code compares
bucket pointers), `length` is `b->length` with `SIZEMAX` meaning `-1`,
`readLen` the length a read would materialize, `fd` the file handle of a
file bucket and `readPool` the file bucket's internal read pool. -/
structure Bucket where
  bid : Nat
  kind : BKind
  length : Nat
  readLen : Nat := 0
  fd : Nat := 0
  readPool : Option Nat := none
  deriving DecidableEq, Repr

/-- Kinds of consumer-side (green) buckets produced by `h2_beam_receive`. -/
inductive GKind where
  | eos
  | flush
  | error
  | fileG
  | beamB (n : Nat)
  | dataG
  deriving DecidableEq, Repr

/-- A consumer-side (green) bucket: its kind and length. -/
structure GBucket where
  kind : GKind
  length : Nat
  deriving DecidableEq, Repr

/-- h2_beam_proxy: the shared data of a beam bucket.  `beamRef` models the
`beam` backpointer being non-NULL, `bred` the id of the red source bucket
(`none` once nullified), `n` the sequence number. -/
structure Proxy where
  n : Nat
  beamRef : Bool := true
  bred : Option Nat := none
  deriving DecidableEq, Repr

/-- h2_bucket_beam.  Queue, flag and counter fields follow the C struct;
the remaining fields model the configuration hooks and the ghost state
described in the file header. -/
structure Beam where
  send_list : List Bucket := []
  hold_list : List Bucket := []
  purge_list : List Bucket := []
  proxies : List Proxy := []
  recv_buffer : Option (List GBucket) := none
  closed : Bool := false
  aborted : Bool := false
  close_sent : Bool := false
  sent_bytes : Nat := 0
  received_bytes : Nat := 0
  reported_consumed_bytes : Nat := 0
  reported_produced_bytes : Nat := 0
  buckets_sent : Nat := 0
  files_beamed : Nat := 0
  max_buf_size : Nat := 0
  timeoutPos : Bool := false
  owner : Owner := .send
  send_pool : Option Nat := none
  recv_pool : Option Nat := none
  hasEnter : Bool := false
  hasCond : Bool := false
  hasConsumedCb : Bool := false
  hasProducedCb : Bool := false
  hasCanBeamCb : Bool := false
  canBeamResult : Bool := true
  last_beamed : Option Nat := none
  consumedDeltas : List Nat := []
  producedDeltas : List Nat := []
  detached : List Proxy := []
  birthHookArmed : Bool := true
  nextId : Nat := 1000000
  deriving DecidableEq, Repr

/-- report_consumption: fire the consumed callback with the outstanding delta
and catch `reported_consumed_bytes` up to `received_bytes`. -/
def report_consumption (s : Beam) (force : Bool) : Beam :=
  if force || s.received_bytes != s.reported_consumed_bytes then
    { s with
      consumedDeltas :=
        if s.hasConsumedCb then
          s.consumedDeltas ++ [s.received_bytes - s.reported_consumed_bytes]
        else s.consumedDeltas,
      reported_consumed_bytes := s.received_bytes }
  else s

/-- report_production: fire the produced callback with the outstanding delta
and catch `reported_produced_bytes` up to `sent_bytes`. -/
def report_production (s : Beam) (force : Bool) : Beam :=
  if force || s.sent_bytes != s.reported_produced_bytes then
    { s with
      producedDeltas :=
        if s.hasProducedCb then
          s.producedDeltas ++ [s.sent_bytes - s.reported_produced_bytes]
        else s.producedDeltas,
      reported_produced_bytes := s.sent_bytes }
  else s

/-- calc_buffered: memory footprint of `send_list`, skipping buckets of
indeterminate length and file buckets. -/
def calc_buffered (s : Beam) : Nat :=
  (s.send_list.map fun b =>
    if b.length = SIZEMAX then 0
    else if b.kind = .file then 0
    else b.length).sum

/-- calc_space_left: `max_buf_size - buffered` clamped at zero, or
`APR_SIZE_MAX` when `max_buf_size` is zero. -/
def calc_space_left (s : Beam) : Nat :=
  if 0 < s.max_buf_size then
    if calc_buffered s < s.max_buf_size then s.max_buf_size - calc_buffered s else 0
  else SIZEMAX

/-- r_purge_sent: delete every sender bucket in the purge brigade. -/
def r_purge_sent (s : Beam) : Beam :=
  { s with purge_list := [] }

/-- One event observed by a condition-variable wait: either the timed wait
expired, or we were woken with the beam in the state the other thread left. -/
inductive WaitEv where
  | tmo
  | wake (s : Beam)
  deriving Repr

/-- wait_cond: a timed wait can report APR_TIMEUP; an untimed wait cannot, so
a `tmo` event on a beam without a positive timeout is a spurious wake. -/
def wait_cond (s : Beam) (ev : WaitEv) : Status × Beam :=
  match ev with
  | .tmo => if s.timeoutPos then (.timeup, s) else (.success, s)
  | .wake s2 => (.success, s2)

/-- r_wait_space: wait (consuming the oracle) until space is available, the
beam is aborted, or the wait times out; returns the final space left. -/
def r_wait_space (block : Block) (mutexB : Bool) : Beam → List WaitEv →
    Status × Beam × Nat × List WaitEv
  | s, [] =>
    let premain := calc_space_left s
    if !s.aborted && premain == 0 && block == Block.blocking && mutexB then
      (.efuel, s, premain, [])
    else ((if s.aborted then .econnaborted else .success), s, premain, [])
  | s, ev :: rest =>
    let premain := calc_space_left s
    if !s.aborted && premain == 0 && block == Block.blocking && mutexB then
      let s1 := report_production s true
      let p := wait_cond s1 ev
      if p.1 = .timeup then (.timeup, p.2, premain, rest)
      else r_wait_space block mutexB (r_purge_sent p.2) rest
    else ((if s.aborted then .econnaborted else .success), s, premain, ev :: rest)

/-- apr_bucket_read on a bucket of indeterminate length materializes its
length (a completed read never reports the `-1` marker). -/
def materializeRead (b : Bucket) : Bucket :=
  if b.length = SIZEMAX then { b with length := b.readLen % SIZEMAX } else b

/-- The admission tail of append_bucket: move the bucket to `send_list` and
add its length to `sent_bytes`; `leftover` is the split-off tail, if any,
left in the sender's brigade. -/
def admitBucket (s : Beam) (b : Bucket) (leftover : Option Bucket)
    (oracle : List WaitEv) : Status × Beam × Option Bucket × List WaitEv :=
  (.success,
   { s with send_list := s.send_list ++ [b], sent_bytes := s.sent_bytes + b.length },
   leftover, oracle)

/-- The APR_ENOTIMPL fallback of append_bucket: raise the split point to at
least `APR_BUCKET_BUFF_SIZE`, split if the bucket is longer, then read in the
producer thread and set aside. -/
def fallbackRead (s : Beam) (b : Bucket) (space_left : Nat) (oracle : List WaitEv) :
    Status × Beam × Option Bucket × List WaitEv :=
  let space_left :=
    if space_left < APR_BUCKET_BUFF_SIZE then APR_BUCKET_BUFF_SIZE else space_left
  if space_left < b.length then
    let head := { b with length := space_left }
    let tail := { b with bid := s.nextId, length := b.length - space_left }
    admitBucket { s with nextId := s.nextId + 1 } (materializeRead head) (some tail) oracle
  else
    admitBucket s (materializeRead b) none oracle

/-- The normalization dispatch of append_bucket (the chain that starts with
`status = APR_ENOTIMPL`): transient buckets are set aside into heap buckets,
heap buckets pass, pool buckets are read and re-made as heap, file buckets are
set aside when the can-beam callback permits, everything else goes through
the read-and-setaside fallback. -/
def normalizeAdmit (s : Beam) (b : Bucket) (space_left : Nat) (oracle : List WaitEv) :
    Status × Beam × Option Bucket × List WaitEv :=
  match b.kind with
  | .transient => admitBucket s { b with kind := .heap } none oracle
  | .heap => admitBucket s b none oracle
  | .pool => admitBucket s { b with kind := .heap } none oracle
  | .file =>
    let can_beam :=
      if s.last_beamed ≠ some b.fd && s.hasCanBeamCb then s.canBeamResult else true
    if can_beam then
      admitBucket { s with last_beamed := some b.fd }
        { b with readPool := s.send_pool } none oracle
    else
      fallbackRead s b space_left oracle
  | _ => fallbackRead s b space_left oracle

/-- append_bucket: admit one sender bucket into `send_list`, enforcing
metadata fast path, file exemption, backpressure and normalization. -/
def append_bucket (s : Beam) (b : Bucket) (block : Block) (mutexB : Bool)
    (oracle : List WaitEv) : Status × Beam × Option Bucket × List WaitEv :=
  if b.kind.isMeta then
    let s2 := if b.kind = .eos then { s with closed := true } else s
    (.success, { s2 with send_list := s2.send_list ++ [b] }, none, oracle)
  else if b.kind = .file then
    normalizeAdmit s b 0 oracle
  else
    let space1 := calc_space_left s
    let b2 := if 0 < space1 && b.length == SIZEMAX then materializeRead b else b
    if space1 < b2.length then
      let r := r_wait_space block mutexB s oracle
      if r.1 ≠ .success then (r.1, r.2.1, none, r.2.2.2)
      else if r.2.2.1 = 0 then (.eagain, r.2.1, none, r.2.2.2)
      else normalizeAdmit r.2.1 b2 r.2.2.1 r.2.2.2
    else
      normalizeAdmit s b2 space1 oracle

theorem materializeRead_length_le (b : Bucket) : (materializeRead b).length ≤ b.length := by
  unfold materializeRead
  split
  · rename_i h
    simp only
    rw [h]
    have : b.readLen % SIZEMAX < SIZEMAX := Nat.mod_lt _ (by decide)
    omega
  · exact Nat.le_refl _

theorem fallbackRead_leftover_lt (s : Beam) (b : Bucket) (sp : Nat) (oracle : List WaitEv) :
    ∀ t, (fallbackRead s b sp oracle).2.2.1 = some t → t.length < b.length := by
  intro t ht
  unfold fallbackRead admitBucket APR_BUCKET_BUFF_SIZE at ht
  dsimp only at ht
  repeat' split at ht
  all_goals try dsimp only at ht
  all_goals
    first
      | exact Option.noConfusion ht
      | (injection ht with ht
         subst ht
         dsimp only
         omega)

theorem normalizeAdmit_leftover_lt (s : Beam) (b : Bucket) (sp : Nat) (oracle : List WaitEv) :
    ∀ t, (normalizeAdmit s b sp oracle).2.2.1 = some t → t.length < b.length := by
  intro t ht
  unfold normalizeAdmit admitBucket at ht
  dsimp only at ht
  repeat' split at ht
  all_goals try dsimp only at ht
  all_goals
    first
      | exact Option.noConfusion ht
      | exact fallbackRead_leftover_lt _ _ _ _ t ht

theorem append_bucket_leftover_lt (s : Beam) (b : Bucket) (block : Block) (mutexB : Bool)
    (oracle : List WaitEv) :
    ∀ t, (append_bucket s b block mutexB oracle).2.2.1 = some t → t.length < b.length := by
  intro t ht
  have h3 := materializeRead_length_le b
  unfold append_bucket at ht
  dsimp only at ht
  repeat' split at ht
  all_goals try dsimp only at ht
  all_goals
    first
      | exact Option.noConfusion ht
      | (have h2 := normalizeAdmit_leftover_lt _ _ _ _ t ht; omega)

/-- Fuel that bounds the send loop's iteration count: a bucket of length
`n` can be re-processed after splits at most `n + 1` times. -/
def sendFuel (l : List Bucket) : Nat :=
  (l.map fun b => b.length + 1).sum

/-- The send loop of h2_beam_send, on explicit fuel: append brigade buckets
in order while the status stays successful; a split leaves its tail at the
brigade's head. -/
def sendLoopF (block : Block) (mutexB : Bool) :
    Nat → Beam → List Bucket → List WaitEv → Status × Beam
  | 0, s, l, _ =>
    match l with
    | [] => (.success, s)
    | _ :: _ => (.efuel, s)
  | n + 1, s, l, oracle =>
    match l with
    | [] => (.success, s)
    | b :: rest =>
      match append_bucket s b block mutexB oracle with
      | (.success, s2, none, or2) => sendLoopF block mutexB n s2 rest or2
      | (.success, s2, some tail, or2) => sendLoopF block mutexB n s2 (tail :: rest) or2
      | (st, s2, _, _) => (st, s2)

/-- The send loop of h2_beam_send, with its fuel computed from the brigade
(`sendLoopF_fuel_irrelevant` shows any sufficient fuel gives the same
result). -/
def sendLoop (block : Block) (mutexB : Bool) (s : Beam) (l : List Bucket)
    (oracle : List WaitEv) : Status × Beam :=
  sendLoopF block mutexB (sendFuel l) s l oracle

theorem sendFuel_cons (b : Bucket) (rest : List Bucket) :
    sendFuel (b :: rest) = b.length + 1 + sendFuel rest := by
  simp [sendFuel]

theorem sendLoopF_fuel_irrelevant (block : Block) (mutexB : Bool) :
    ∀ (n1 n2 : Nat) (s : Beam) (l : List Bucket) (oracle : List WaitEv),
      sendFuel l ≤ n1 → sendFuel l ≤ n2 →
      sendLoopF block mutexB n1 s l oracle = sendLoopF block mutexB n2 s l oracle := by
  intro n1
  induction n1 with
  | zero =>
    intro n2 s l oracle h1 h2
    rcases l with _ | ⟨b, rest⟩
    · rcases n2 with _ | m <;> rfl
    · exfalso
      rw [sendFuel_cons] at h1
      omega
  | succ n ih =>
    intro n2 s l oracle h1 h2
    rcases l with _ | ⟨b, rest⟩
    · rcases n2 with _ | m <;> rfl
    · have hf := sendFuel_cons b rest
      rcases n2 with _ | m
      · exfalso
        omega
      · have step1 : sendLoopF block mutexB (n + 1) s (b :: rest) oracle =
            match append_bucket s b block mutexB oracle with
            | (.success, s2, none, or2) => sendLoopF block mutexB n s2 rest or2
            | (.success, s2, some tail, or2) => sendLoopF block mutexB n s2 (tail :: rest) or2
            | (st, s2, _, _) => (st, s2) := rfl
        have step2 : sendLoopF block mutexB (m + 1) s (b :: rest) oracle =
            match append_bucket s b block mutexB oracle with
            | (.success, s2, none, or2) => sendLoopF block mutexB m s2 rest or2
            | (.success, s2, some tail, or2) => sendLoopF block mutexB m s2 (tail :: rest) or2
            | (st, s2, _, _) => (st, s2) := rfl
        rw [step1, step2]
        rcases hap : append_bucket s b block mutexB oracle with ⟨st, s2, lo, or2⟩
        have htl : ∀ t, lo = some t → t.length < b.length := fun t h =>
          append_bucket_leftover_lt s b block mutexB oracle t (by rw [hap, h])
        cases st <;> rcases lo with _ | tail <;> try dsimp only
        all_goals
          first
            | rfl
            | exact ih m s2 rest or2 (by omega) (by omega)
            | (have h3 := htl tail rfl
               have hft := sendFuel_cons tail rest
               exact ih m s2 (tail :: rest) or2 (by omega) (by omega))

theorem sendLoop_nil (block : Block) (mutexB : Bool) (s : Beam) (oracle : List WaitEv) :
    sendLoop block mutexB s [] oracle = (.success, s) := rfl

theorem sendLoop_cons (block : Block) (mutexB : Bool) (s : Beam) (b : Bucket)
    (rest : List Bucket) (oracle : List WaitEv) :
    sendLoop block mutexB s (b :: rest) oracle =
      match append_bucket s b block mutexB oracle with
      | (.success, s2, none, or2) => sendLoop block mutexB s2 rest or2
      | (.success, s2, some tail, or2) => sendLoop block mutexB s2 (tail :: rest) or2
      | (st, s2, _, _) => (st, s2) := by
  have hf := sendFuel_cons b rest
  have hrepr : sendFuel (b :: rest) = (b.length + sendFuel rest) + 1 := by omega
  unfold sendLoop
  rw [hrepr]
  have step1 : sendLoopF block mutexB ((b.length + sendFuel rest) + 1) s (b :: rest) oracle =
      match append_bucket s b block mutexB oracle with
      | (.success, s2, none, or2) =>
        sendLoopF block mutexB (b.length + sendFuel rest) s2 rest or2
      | (.success, s2, some tail, or2) =>
        sendLoopF block mutexB (b.length + sendFuel rest) s2 (tail :: rest) or2
      | (st, s2, _, _) => (st, s2) := rfl
  rw [step1]
  rcases hap : append_bucket s b block mutexB oracle with ⟨st, s2, lo, or2⟩
  have htl : ∀ t, lo = some t → t.length < b.length := fun t h =>
    append_bucket_leftover_lt s b block mutexB oracle t (by rw [hap, h])
  cases st <;> rcases lo with _ | tail <;> try dsimp only
  all_goals
    first
      | rfl
      | exact sendLoopF_fuel_irrelevant block mutexB _ _ s2 rest or2 (by omega) (by omega)
      | (have h3 := htl tail rfl
         have hft := sendFuel_cons tail rest
         exact sendLoopF_fuel_irrelevant block mutexB _ _ s2 (tail :: rest) or2
           (by omega) (by omega))

/-- move_to_hold (its actual effect: the aborted-send path moves the whole
remaining brigade into `send_list` without normalization). -/
def move_to_hold (s : Beam) (br : List Bucket) : Beam :=
  { s with send_list := s.send_list ++ br }

/-- beam_set_send_pool: when the receiver owns the beam, monitor the sender
pool's lifetime. -/
def beam_set_send_pool (s : Beam) (pool : Option Nat) : Beam :=
  if s.owner = .recv ∧ s.send_pool ≠ pool then { s with send_pool := pool } else s

/-- beam_set_recv_pool: when the sender owns the beam, monitor the receiver
pool's lifetime. -/
def beam_set_recv_pool (s : Beam) (pool : Option Nat) : Beam :=
  if s.owner = .send ∧ s.recv_pool ≠ pool then { s with recv_pool := pool } else s

theorem report_consumption_send_list (s : Beam) (f : Bool) :
    (report_consumption s f).send_list = s.send_list := by
  unfold report_consumption
  split <;> rfl

theorem report_consumption_hold_list (s : Beam) (f : Bool) :
    (report_consumption s f).hold_list = s.hold_list := by
  unfold report_consumption
  split <;> rfl

theorem report_consumption_purge_list (s : Beam) (f : Bool) :
    (report_consumption s f).purge_list = s.purge_list := by
  unfold report_consumption
  split <;> rfl

theorem report_consumption_proxies (s : Beam) (f : Bool) :
    (report_consumption s f).proxies = s.proxies := by
  unfold report_consumption
  split <;> rfl

theorem report_consumption_recv_buffer (s : Beam) (f : Bool) :
    (report_consumption s f).recv_buffer = s.recv_buffer := by
  unfold report_consumption
  split <;> rfl

theorem report_consumption_closed (s : Beam) (f : Bool) :
    (report_consumption s f).closed = s.closed := by
  unfold report_consumption
  split <;> rfl

theorem report_consumption_aborted (s : Beam) (f : Bool) :
    (report_consumption s f).aborted = s.aborted := by
  unfold report_consumption
  split <;> rfl

theorem report_consumption_close_sent (s : Beam) (f : Bool) :
    (report_consumption s f).close_sent = s.close_sent := by
  unfold report_consumption
  split <;> rfl

theorem report_consumption_sent_bytes (s : Beam) (f : Bool) :
    (report_consumption s f).sent_bytes = s.sent_bytes := by
  unfold report_consumption
  split <;> rfl

theorem report_consumption_received_bytes (s : Beam) (f : Bool) :
    (report_consumption s f).received_bytes = s.received_bytes := by
  unfold report_consumption
  split <;> rfl

theorem report_consumption_hasEnter (s : Beam) (f : Bool) :
    (report_consumption s f).hasEnter = s.hasEnter := by
  unfold report_consumption
  split <;> rfl

theorem report_consumption_hasCond (s : Beam) (f : Bool) :
    (report_consumption s f).hasCond = s.hasCond := by
  unfold report_consumption
  split <;> rfl

theorem report_consumption_owner (s : Beam) (f : Bool) :
    (report_consumption s f).owner = s.owner := by
  unfold report_consumption
  split <;> rfl

theorem report_consumption_send_pool (s : Beam) (f : Bool) :
    (report_consumption s f).send_pool = s.send_pool := by
  unfold report_consumption
  split <;> rfl

theorem report_consumption_recv_pool (s : Beam) (f : Bool) :
    (report_consumption s f).recv_pool = s.recv_pool := by
  unfold report_consumption
  split <;> rfl

theorem report_consumption_max_buf_size (s : Beam) (f : Bool) :
    (report_consumption s f).max_buf_size = s.max_buf_size := by
  unfold report_consumption
  split <;> rfl

theorem report_consumption_detached (s : Beam) (f : Bool) :
    (report_consumption s f).detached = s.detached := by
  unfold report_consumption
  split <;> rfl

theorem report_consumption_buckets_sent (s : Beam) (f : Bool) :
    (report_consumption s f).buckets_sent = s.buckets_sent := by
  unfold report_consumption
  split <;> rfl

theorem report_consumption_files_beamed (s : Beam) (f : Bool) :
    (report_consumption s f).files_beamed = s.files_beamed := by
  unfold report_consumption
  split <;> rfl

theorem report_consumption_timeoutPos (s : Beam) (f : Bool) :
    (report_consumption s f).timeoutPos = s.timeoutPos := by
  unfold report_consumption
  split <;> rfl

theorem report_production_send_list (s : Beam) (f : Bool) :
    (report_production s f).send_list = s.send_list := by
  unfold report_production
  split <;> rfl

theorem report_production_hold_list (s : Beam) (f : Bool) :
    (report_production s f).hold_list = s.hold_list := by
  unfold report_production
  split <;> rfl

theorem report_production_purge_list (s : Beam) (f : Bool) :
    (report_production s f).purge_list = s.purge_list := by
  unfold report_production
  split <;> rfl

theorem report_production_proxies (s : Beam) (f : Bool) :
    (report_production s f).proxies = s.proxies := by
  unfold report_production
  split <;> rfl

theorem report_production_recv_buffer (s : Beam) (f : Bool) :
    (report_production s f).recv_buffer = s.recv_buffer := by
  unfold report_production
  split <;> rfl

theorem report_production_closed (s : Beam) (f : Bool) :
    (report_production s f).closed = s.closed := by
  unfold report_production
  split <;> rfl

theorem report_production_aborted (s : Beam) (f : Bool) :
    (report_production s f).aborted = s.aborted := by
  unfold report_production
  split <;> rfl

theorem report_production_close_sent (s : Beam) (f : Bool) :
    (report_production s f).close_sent = s.close_sent := by
  unfold report_production
  split <;> rfl

theorem report_production_sent_bytes (s : Beam) (f : Bool) :
    (report_production s f).sent_bytes = s.sent_bytes := by
  unfold report_production
  split <;> rfl

theorem report_production_received_bytes (s : Beam) (f : Bool) :
    (report_production s f).received_bytes = s.received_bytes := by
  unfold report_production
  split <;> rfl

theorem report_production_hasEnter (s : Beam) (f : Bool) :
    (report_production s f).hasEnter = s.hasEnter := by
  unfold report_production
  split <;> rfl

theorem report_production_hasCond (s : Beam) (f : Bool) :
    (report_production s f).hasCond = s.hasCond := by
  unfold report_production
  split <;> rfl

theorem report_production_owner (s : Beam) (f : Bool) :
    (report_production s f).owner = s.owner := by
  unfold report_production
  split <;> rfl

theorem report_production_send_pool (s : Beam) (f : Bool) :
    (report_production s f).send_pool = s.send_pool := by
  unfold report_production
  split <;> rfl

theorem report_production_recv_pool (s : Beam) (f : Bool) :
    (report_production s f).recv_pool = s.recv_pool := by
  unfold report_production
  split <;> rfl

theorem report_production_max_buf_size (s : Beam) (f : Bool) :
    (report_production s f).max_buf_size = s.max_buf_size := by
  unfold report_production
  split <;> rfl

theorem report_production_detached (s : Beam) (f : Bool) :
    (report_production s f).detached = s.detached := by
  unfold report_production
  split <;> rfl

theorem report_production_buckets_sent (s : Beam) (f : Bool) :
    (report_production s f).buckets_sent = s.buckets_sent := by
  unfold report_production
  split <;> rfl

theorem report_production_files_beamed (s : Beam) (f : Bool) :
    (report_production s f).files_beamed = s.files_beamed := by
  unfold report_production
  split <;> rfl

theorem report_production_timeoutPos (s : Beam) (f : Bool) :
    (report_production s f).timeoutPos = s.timeoutPos := by
  unfold report_production
  split <;> rfl

theorem beam_set_send_pool_send_list (s : Beam) (p : Option Nat) :
    (beam_set_send_pool s p).send_list = s.send_list := by
  unfold beam_set_send_pool
  split <;> rfl

theorem beam_set_send_pool_hold_list (s : Beam) (p : Option Nat) :
    (beam_set_send_pool s p).hold_list = s.hold_list := by
  unfold beam_set_send_pool
  split <;> rfl

theorem beam_set_send_pool_purge_list (s : Beam) (p : Option Nat) :
    (beam_set_send_pool s p).purge_list = s.purge_list := by
  unfold beam_set_send_pool
  split <;> rfl

theorem beam_set_send_pool_proxies (s : Beam) (p : Option Nat) :
    (beam_set_send_pool s p).proxies = s.proxies := by
  unfold beam_set_send_pool
  split <;> rfl

theorem beam_set_send_pool_recv_buffer (s : Beam) (p : Option Nat) :
    (beam_set_send_pool s p).recv_buffer = s.recv_buffer := by
  unfold beam_set_send_pool
  split <;> rfl

theorem beam_set_send_pool_closed (s : Beam) (p : Option Nat) :
    (beam_set_send_pool s p).closed = s.closed := by
  unfold beam_set_send_pool
  split <;> rfl

theorem beam_set_send_pool_aborted (s : Beam) (p : Option Nat) :
    (beam_set_send_pool s p).aborted = s.aborted := by
  unfold beam_set_send_pool
  split <;> rfl

theorem beam_set_send_pool_close_sent (s : Beam) (p : Option Nat) :
    (beam_set_send_pool s p).close_sent = s.close_sent := by
  unfold beam_set_send_pool
  split <;> rfl

theorem beam_set_send_pool_sent_bytes (s : Beam) (p : Option Nat) :
    (beam_set_send_pool s p).sent_bytes = s.sent_bytes := by
  unfold beam_set_send_pool
  split <;> rfl

theorem beam_set_send_pool_received_bytes (s : Beam) (p : Option Nat) :
    (beam_set_send_pool s p).received_bytes = s.received_bytes := by
  unfold beam_set_send_pool
  split <;> rfl

theorem beam_set_send_pool_hasEnter (s : Beam) (p : Option Nat) :
    (beam_set_send_pool s p).hasEnter = s.hasEnter := by
  unfold beam_set_send_pool
  split <;> rfl

theorem beam_set_send_pool_hasCond (s : Beam) (p : Option Nat) :
    (beam_set_send_pool s p).hasCond = s.hasCond := by
  unfold beam_set_send_pool
  split <;> rfl

theorem beam_set_send_pool_owner (s : Beam) (p : Option Nat) :
    (beam_set_send_pool s p).owner = s.owner := by
  unfold beam_set_send_pool
  split <;> rfl

theorem beam_set_send_pool_recv_pool (s : Beam) (p : Option Nat) :
    (beam_set_send_pool s p).recv_pool = s.recv_pool := by
  unfold beam_set_send_pool
  split <;> rfl

theorem beam_set_send_pool_max_buf_size (s : Beam) (p : Option Nat) :
    (beam_set_send_pool s p).max_buf_size = s.max_buf_size := by
  unfold beam_set_send_pool
  split <;> rfl

theorem beam_set_send_pool_detached (s : Beam) (p : Option Nat) :
    (beam_set_send_pool s p).detached = s.detached := by
  unfold beam_set_send_pool
  split <;> rfl

theorem beam_set_send_pool_buckets_sent (s : Beam) (p : Option Nat) :
    (beam_set_send_pool s p).buckets_sent = s.buckets_sent := by
  unfold beam_set_send_pool
  split <;> rfl

theorem beam_set_send_pool_files_beamed (s : Beam) (p : Option Nat) :
    (beam_set_send_pool s p).files_beamed = s.files_beamed := by
  unfold beam_set_send_pool
  split <;> rfl

theorem beam_set_send_pool_timeoutPos (s : Beam) (p : Option Nat) :
    (beam_set_send_pool s p).timeoutPos = s.timeoutPos := by
  unfold beam_set_send_pool
  split <;> rfl

theorem beam_set_recv_pool_send_list (s : Beam) (p : Option Nat) :
    (beam_set_recv_pool s p).send_list = s.send_list := by
  unfold beam_set_recv_pool
  split <;> rfl

theorem beam_set_recv_pool_hold_list (s : Beam) (p : Option Nat) :
    (beam_set_recv_pool s p).hold_list = s.hold_list := by
  unfold beam_set_recv_pool
  split <;> rfl

theorem beam_set_recv_pool_purge_list (s : Beam) (p : Option Nat) :
    (beam_set_recv_pool s p).purge_list = s.purge_list := by
  unfold beam_set_recv_pool
  split <;> rfl

theorem beam_set_recv_pool_proxies (s : Beam) (p : Option Nat) :
    (beam_set_recv_pool s p).proxies = s.proxies := by
  unfold beam_set_recv_pool
  split <;> rfl

theorem beam_set_recv_pool_recv_buffer (s : Beam) (p : Option Nat) :
    (beam_set_recv_pool s p).recv_buffer = s.recv_buffer := by
  unfold beam_set_recv_pool
  split <;> rfl

theorem beam_set_recv_pool_closed (s : Beam) (p : Option Nat) :
    (beam_set_recv_pool s p).closed = s.closed := by
  unfold beam_set_recv_pool
  split <;> rfl

theorem beam_set_recv_pool_aborted (s : Beam) (p : Option Nat) :
    (beam_set_recv_pool s p).aborted = s.aborted := by
  unfold beam_set_recv_pool
  split <;> rfl

theorem beam_set_recv_pool_close_sent (s : Beam) (p : Option Nat) :
    (beam_set_recv_pool s p).close_sent = s.close_sent := by
  unfold beam_set_recv_pool
  split <;> rfl

theorem beam_set_recv_pool_sent_bytes (s : Beam) (p : Option Nat) :
    (beam_set_recv_pool s p).sent_bytes = s.sent_bytes := by
  unfold beam_set_recv_pool
  split <;> rfl

theorem beam_set_recv_pool_received_bytes (s : Beam) (p : Option Nat) :
    (beam_set_recv_pool s p).received_bytes = s.received_bytes := by
  unfold beam_set_recv_pool
  split <;> rfl

theorem beam_set_recv_pool_hasEnter (s : Beam) (p : Option Nat) :
    (beam_set_recv_pool s p).hasEnter = s.hasEnter := by
  unfold beam_set_recv_pool
  split <;> rfl

theorem beam_set_recv_pool_hasCond (s : Beam) (p : Option Nat) :
    (beam_set_recv_pool s p).hasCond = s.hasCond := by
  unfold beam_set_recv_pool
  split <;> rfl

theorem beam_set_recv_pool_owner (s : Beam) (p : Option Nat) :
    (beam_set_recv_pool s p).owner = s.owner := by
  unfold beam_set_recv_pool
  split <;> rfl

theorem beam_set_recv_pool_send_pool (s : Beam) (p : Option Nat) :
    (beam_set_recv_pool s p).send_pool = s.send_pool := by
  unfold beam_set_recv_pool
  split <;> rfl

theorem beam_set_recv_pool_max_buf_size (s : Beam) (p : Option Nat) :
    (beam_set_recv_pool s p).max_buf_size = s.max_buf_size := by
  unfold beam_set_recv_pool
  split <;> rfl

theorem beam_set_recv_pool_detached (s : Beam) (p : Option Nat) :
    (beam_set_recv_pool s p).detached = s.detached := by
  unfold beam_set_recv_pool
  split <;> rfl

theorem beam_set_recv_pool_buckets_sent (s : Beam) (p : Option Nat) :
    (beam_set_recv_pool s p).buckets_sent = s.buckets_sent := by
  unfold beam_set_recv_pool
  split <;> rfl

theorem beam_set_recv_pool_files_beamed (s : Beam) (p : Option Nat) :
    (beam_set_recv_pool s p).files_beamed = s.files_beamed := by
  unfold beam_set_recv_pool
  split <;> rfl

theorem beam_set_recv_pool_timeoutPos (s : Beam) (p : Option Nat) :
    (beam_set_recv_pool s p).timeoutPos = s.timeoutPos := by
  unfold beam_set_recv_pool
  split <;> rfl

/-- h2_beam_send: purge, bind the sender pool, dump the brigade and fail when
aborted, otherwise run the append loop and fire the callbacks.  The brigade
argument is `none` for a NULL brigade, otherwise the bucket list and its
pool. -/
def h2_beam_send (s : Beam) (rb : Option (List Bucket × Option Nat)) (block : Block)
    (oracle : List WaitEv) : Status × Beam :=
  let mutexB := s.hasEnter
  let s := r_purge_sent s
  let s :=
    match rb with
    | some (_, p) => beam_set_send_pool s p
    | none => s
  let r :=
    if s.aborted then
      (Status.econnaborted,
       match rb with
       | some (br, _) => move_to_hold s br
       | none => s)
    else
      match rb with
      | some (br, _) =>
        let force := !br.isEmpty
        let r2 := sendLoop block mutexB s br oracle
        (r2.1, report_production r2.2 force)
      | none => (.success, s)
  (r.1, report_consumption r.2 false)



/-- The hold scan of h2_beam_emitted: walk `hold_list` from the front; move
metadata buckets to purge, stop after moving the source bucket, keep other
data buckets.  Returns the new hold list and the buckets moved to purge. -/
def holdScan (srcId : Nat) : List Bucket → List Bucket × List Bucket
  | [] => ([], [])
  | b :: rest =>
    if b.bid = srcId then (rest, [b])
    else if b.kind.isMeta then
      let r := holdScan srcId rest
      (r.1, b :: r.2)
    else
      let r := holdScan srcId rest
      (b :: r.1, r.2)

/-- h2_beam_emitted: invoked when the last green reference to proxy `i`
drops; unlink the proxy, schedule its source bucket (and metadata stuck in
front of it) for purge, then notify or self-purge.  Returns the updated beam
and the proxy as it looks afterwards. -/
def h2_beam_emitted (s : Beam) (i : Nat) : Beam × Option Proxy :=
  match s.proxies.get? i with
  | none => (s, none)
  | some p =>
    let s := { s with proxies := s.proxies.eraseIdx i }
    let r :=
      match p.bred with
      | some bid =>
        if s.hold_list.any fun b => b.bid = bid then
          let r2 := holdScan bid s.hold_list
          ({ s with hold_list := r2.1, purge_list := s.purge_list ++ r2.2 },
           { p with bred := none })
        else
          -- the source warns and asserts here; the backpointer is kept
          (s, p)
      | none => (s, p)
    let s2 := if !s.hasEnter then r_purge_sent r.1 else r.1
    (s2, some r.2)

/-- beam_close: set `closed` and broadcast. -/
def beam_close (s : Beam) : Beam :=
  if !s.closed then { s with closed := true } else s

/-- h2_beam_abort: first call purges, clears the send queue and reports
consumption; repeated calls only broadcast. -/
def h2_beam_abort (s : Beam) : Beam :=
  if !s.aborted then
    let s := { s with aborted := true }
    let s := r_purge_sent s
    let s := { s with send_list := [] }
    report_consumption s false
  else s

/-- h2_beam_close: purge, set `closed`, report consumption; returns
connection-aborted when the beam is aborted. -/
def h2_beam_close (s : Beam) : Status × Beam :=
  let s := r_purge_sent s
  let s := beam_close s
  let s := report_consumption s false
  ((if s.aborted then .econnaborted else .success), s)

/-- The wait loop of h2_beam_wait_empty with the mutex presence captured at
entry. -/
def waitEmptyGo (mutexB : Bool) (block : Block) : Beam → List WaitEv → Status × Beam
  | s, [] =>
    if !s.send_list.isEmpty && !s.proxies.isEmpty then
      if block = .nonblocking || !mutexB then (.eagain, s)
      else (.efuel, s)
    else (.success, s)
  | s, ev :: rest =>
    if !s.send_list.isEmpty && !s.proxies.isEmpty then
      if block = .nonblocking || !mutexB then (.eagain, s)
      else
        let p := wait_cond s ev
        if p.1 = .success then waitEmptyGo mutexB block p.2 rest
        else (p.1, p.2)
    else (.success, s)

/-- h2_beam_wait_empty: wait until the loop condition releases, or return
again in non-blocking mode. -/
def h2_beam_wait_empty (s : Beam) (block : Block) (oracle : List WaitEv) :
    Status × Beam :=
  waitEmptyGo s.hasEnter block s oracle

/-- beam_send_cleanup: the sender pool dies; purge and free the send list,
report, detach every proxy (nulling its beam and source pointers) and free
the hold and purge lists. -/
def beam_send_cleanup (s : Beam) : Beam :=
  let s := r_purge_sent s
  let s := { s with send_list := [] }
  let s := report_consumption s false
  let s := { s with
    detached := s.detached ++ s.proxies.map (fun (p : Proxy) => (⟨p.n, false, none⟩ : Proxy)),
    proxies := [] }
  { s with purge_list := [], hold_list := [], send_pool := none }

/-- beam_cleanup: owner-dependent teardown run from the beam pool's
pre-cleanup (and from h2_beam_destroy). -/
def beam_cleanup (s : Beam) : Beam :=
  let s := beam_close s
  match s.owner with
  | .send =>
    let s := beam_send_cleanup s
    { s with recv_buffer := none, recv_pool := none }
  | .recv =>
    let s := { s with recv_buffer := none, recv_pool := none }
    if s.send_pool ≠ none then beam_send_cleanup s else s

/-- h2_beam_destroy: kill the pool pre-cleanup and run beam_cleanup. -/
def h2_beam_destroy (s : Beam) : Status × Beam :=
  (.success, beam_cleanup { s with birthHookArmed := false })

/-- h2_beam_buffer_size_set. -/
def h2_beam_buffer_size_set (s : Beam) (n : Nat) : Beam :=
  { s with max_buf_size := n }

/-- h2_beam_empty: send list empty and recv_buffer missing or empty. -/
def h2_beam_empty (s : Beam) : Bool :=
  s.send_list.isEmpty &&
    (match s.recv_buffer with
     | none => true
     | some l => l.isEmpty)

/-- h2_beam_holds_proxies. -/
def h2_beam_holds_proxies (s : Beam) : Bool :=
  !s.proxies.isEmpty

/-- h2_beam_was_received: whether any bytes were ever received. -/
def h2_beam_was_received (s : Beam) : Bool :=
  0 < s.received_bytes

/-- h2_beam_get_buffered: total length over the send list. -/
def h2_beam_get_buffered (s : Beam) : Nat :=
  (s.send_list.map fun b => b.length).sum

/-- h2_beam_get_mem_used: like get_buffered but file buckets do not count. -/
def h2_beam_get_mem_used (s : Beam) : Nat :=
  (s.send_list.map fun b => if b.kind = .file then 0 else b.length).sum

/-- beam_bucket_read, at the level of byte content: read through the red
source bucket when the backpointer is live and return the window
`[start, start+length)`; otherwise fail with APR_ECONNRESET and length 0. -/
def beam_bucket_read (bred : Option (List Nat)) (bstart blength : Nat) :
    Status × List Nat :=
  match bred with
  | some data => (.success, (data.drop bstart).take blength)
  | none => (.econnreset, [])

/-- The recv_buffer drain loop of h2_beam_receive: move green buckets into
the destination while the byte budget allows. -/
def drainRecv (readbytes : Int) : List GBucket → List GBucket → Int → Nat →
    List GBucket × List GBucket × Int × Nat
  | [], bb, remain, t => ([], bb, remain, t)
  | g :: rest, bb, remain, t =>
    if readbytes ≤ 0 ∨ 0 ≤ remain then
      if 0 < readbytes ∧ 0 < g.length ∧ remain ≤ 0 then (g :: rest, bb, remain, t)
      else drainRecv readbytes rest (bb ++ [g]) (remain - (g.length : Int)) (t + 1)
    else (g :: rest, bb, remain, t)

/-- The send-list drain loop of h2_beam_receive, recursing on the send list
(the beam's `send_list` field is kept in step): transform red buckets into
green ones (metadata materialized, files re-homed, bytes proxied), moving the
red originals into hold. -/
def drainSendGo (readbytes : Int) (bbPool : Option Nat) :
    List Bucket → Beam → List GBucket → Int → Nat → Beam × List GBucket × Int × Nat
  | [], s, bb, remain, t => (s, bb, remain, t)
  | bred :: rest, s, bb, remain, t =>
    if readbytes ≤ 0 ∨ 0 ≤ remain then
      if 0 < readbytes ∧ 0 < bred.length ∧ remain ≤ 0 then (s, bb, remain, t)
      else
        match bred.kind with
        | .file =>
          let setaside := bred.readPool ≠ bbPool
          let s2 := { s with
            files_beamed := s.files_beamed + (if setaside then 1 else 0),
            send_list := rest,
            hold_list := s.hold_list ++ [bred] }
          drainSendGo readbytes bbPool rest s2 (bb ++ [⟨.fileG, bred.length⟩])
            (remain - (bred.length : Int)) (t + 2)
        | k =>
          let pr : Beam × Option GBucket :=
            match k with
            | .eos => ({ s with close_sent := true }, some ⟨.eos, 0⟩)
            | .flush => (s, some ⟨.flush, 0⟩)
            | .error => (s, some ⟨.error, 0⟩)
            | .metaOther => (s, none)
            | _ =>
              ({ s with
                  proxies := s.proxies ++ [⟨s.buckets_sent, true, some bred.bid⟩],
                  buckets_sent := s.buckets_sent + 1 },
               some ⟨.beamB s.buckets_sent, bred.length⟩)
          let s2 := { pr.1 with
            send_list := rest,
            hold_list := pr.1.hold_list ++ [bred],
            received_bytes := pr.1.received_bytes + bred.length }
          match pr.2 with
          | some g => drainSendGo readbytes bbPool rest s2 (bb ++ [g])
              (remain - (g.length : Int)) (t + 1)
          | none => drainSendGo readbytes bbPool rest s2 bb remain t
    else (s, bb, remain, t)

/-- drainSend: the send-list drain entered on the beam's own send list. -/
def drainSend (readbytes : Int) (bbPool : Option Nat) (s : Beam) (bb : List GBucket)
    (remain : Int) (t : Nat) : Beam × List GBucket × Int × Nat :=
  drainSendGo readbytes bbPool s.send_list s bb remain t

/-- The put-back scan of h2_beam_receive: find the bucket that overruns the
budget, split it there, and move the tail and everything after it into the
recv_buffer (which apr_brigade_split_ex empties first). -/
def putBackGo : List GBucket → Int → Option (List GBucket × List GBucket)
  | [], _ => none
  | g :: rest, remain =>
    let r2 := remain - (g.length : Int)
    if r2 < 0 then
      let point : Nat := ((g.length : Int) + r2).toNat
      some ([{ g with length := point }], { g with length := g.length - point } :: rest)
    else
      match putBackGo rest r2 with
      | some (bb2, rbuf) => some (g :: bb2, rbuf)
      | none => none

/-- Outcome of one pass of h2_beam_receive's body: either the call finishes
with a status, or it must wait on the condition variable before re-entering
at the `transfer:` label. -/
inductive RecvOut where
  | done (st : Status) (s : Beam) (bb : List GBucket)
  | waitNeeded (s : Beam) (bb : List GBucket) (remain : Int) (t : Nat)
  deriving DecidableEq, Repr

/-- The recv_buffer drain block of h2_beam_receive (lines 863-874): drain an
existing recv_buffer through `drainRecv`. -/
def recvDrainBuf (readbytes : Int) (s : Beam) (bb : List GBucket) (remain : Int)
    (t : Nat) : Beam × List GBucket × Int × Nat :=
  match s.recv_buffer with
  | some l =>
    let r := drainRecv readbytes l bb remain t
    ({ s with recv_buffer := some r.1 }, r.2.1, r.2.2.1, r.2.2.2)
  | none => (s, bb, remain, t)

/-- The put-back block of h2_beam_receive (lines 960-975): when the budget
was overrun, split at the overrunning bucket and spill the tail into the
recv_buffer. -/
def recvPutBack (readbytes : Int) (s : Beam) (bb : List GBucket) (remain : Int) :
    Beam × List GBucket :=
  if 0 < readbytes ∧ remain < 0 then
    match putBackGo bb readbytes with
    | some (bb2, rbuf) => ({ s with recv_buffer := some rbuf }, bb2)
    | none => (s, bb)
  else (s, bb)

/-- The closing end-of-stream block of h2_beam_receive (lines 977-988). -/
def recvStep5 (s : Beam) (bb : List GBucket) (t : Nat) : Beam × List GBucket × Nat :=
  if s.closed &&
      (match s.recv_buffer with
       | none => true
       | some l => l.isEmpty) &&
      s.send_list.isEmpty then
    if !s.close_sent then
      ({ s with close_sent := true }, bb ++ [⟨.eos, 0⟩], t + 1)
    else (s, bb, t)
  else (s, bb, t)

/-- The status dispatch of h2_beam_receive (lines 990-1011). -/
def recvDispatch (block : Block) (mutexB : Bool) (s : Beam) (bb : List GBucket)
    (remain : Int) (t : Nat) : RecvOut :=
  if 0 < t then .done .success s bb
  else if s.closed then .done .eof s bb
  else if block = .blocking && mutexB && s.hasCond then .waitNeeded s bb remain t
  else .done .eagain s bb

/-- One pass of h2_beam_receive from the `transfer:` label to the dispatch:
abort check, receiver-pool binding, recv_buffer drain, send drain, put-back,
closing end-of-stream, then the status dispatch. -/
def receivePass (bbPool : Option Nat) (block : Block) (readbytes : Int) (mutexB : Bool)
    (s : Beam) (bb : List GBucket) (remain : Int) (t : Nat) : RecvOut :=
  if s.aborted then
    .done .econnaborted
      { s with recv_buffer := s.recv_buffer.map fun _ => ([] : List GBucket) } bb
  else
    let s1 := beam_set_recv_pool s bbPool
    let r1 := recvDrainBuf readbytes s1 bb remain t
    let r2 := drainSend readbytes bbPool r1.1 r1.2.1 r1.2.2.1 r1.2.2.2
    let pb := recvPutBack readbytes r2.1 r2.2.1 r2.2.2.1
    let st5 := recvStep5 pb.1 pb.2 r2.2.2.2
    recvDispatch block mutexB st5.1 st5.2.1 r2.2.2.1 st5.2.2

/-- The driver of h2_beam_receive: run a pass; when it needs to wait, consume
one oracle event and on a successful wake re-enter at `transfer:`. -/
def receiveGo (bbPool : Option Nat) (block : Block) (readbytes : Int) (mutexB : Bool) :
    List WaitEv → Beam → List GBucket → Int → Nat → Status × Beam × List GBucket
  | oracle, s, bb, remain, t =>
    match receivePass bbPool block readbytes mutexB s bb remain t with
    | .done st s2 bb2 => (st, s2, bb2)
    | .waitNeeded s2 bb2 rem2 t2 =>
      match oracle with
      | [] => (.efuel, s2, bb2)
      | ev :: rest =>
        let p := wait_cond s2 ev
        if p.1 = .success then
          receiveGo bbPool block readbytes mutexB rest p.2 bb2 rem2 t2
        else (p.1, p.2, bb2)

/-- h2_beam_receive: drain the recv_buffer and the send list into `bb`,
split any overrun back into the recv_buffer, deliver the closing
end-of-stream once, and dispatch on what was transferred. -/
def h2_beam_receive (s : Beam) (bb : List GBucket) (bbPool : Option Nat) (block : Block)
    (readbytes : Int) (oracle : List WaitEv) : Status × Beam × List GBucket :=
  receiveGo bbPool block readbytes s.hasEnter oracle s bb readbytes 0


theorem beam_close_send_list (s : Beam) :
    (beam_close s).send_list = s.send_list := by
  unfold beam_close
  split <;> rfl

theorem beam_close_hold_list (s : Beam) :
    (beam_close s).hold_list = s.hold_list := by
  unfold beam_close
  split <;> rfl

theorem beam_close_purge_list (s : Beam) :
    (beam_close s).purge_list = s.purge_list := by
  unfold beam_close
  split <;> rfl

theorem beam_close_proxies (s : Beam) :
    (beam_close s).proxies = s.proxies := by
  unfold beam_close
  split <;> rfl

theorem beam_close_recv_buffer (s : Beam) :
    (beam_close s).recv_buffer = s.recv_buffer := by
  unfold beam_close
  split <;> rfl

theorem beam_close_aborted (s : Beam) :
    (beam_close s).aborted = s.aborted := by
  unfold beam_close
  split <;> rfl

theorem beam_close_close_sent (s : Beam) :
    (beam_close s).close_sent = s.close_sent := by
  unfold beam_close
  split <;> rfl

theorem beam_close_sent_bytes (s : Beam) :
    (beam_close s).sent_bytes = s.sent_bytes := by
  unfold beam_close
  split <;> rfl

theorem beam_close_received_bytes (s : Beam) :
    (beam_close s).received_bytes = s.received_bytes := by
  unfold beam_close
  split <;> rfl

theorem beam_close_reported_consumed_bytes (s : Beam) :
    (beam_close s).reported_consumed_bytes = s.reported_consumed_bytes := by
  unfold beam_close
  split <;> rfl

theorem beam_close_reported_produced_bytes (s : Beam) :
    (beam_close s).reported_produced_bytes = s.reported_produced_bytes := by
  unfold beam_close
  split <;> rfl

theorem beam_close_hasEnter (s : Beam) :
    (beam_close s).hasEnter = s.hasEnter := by
  unfold beam_close
  split <;> rfl

theorem beam_close_hasCond (s : Beam) :
    (beam_close s).hasCond = s.hasCond := by
  unfold beam_close
  split <;> rfl

theorem beam_close_owner (s : Beam) :
    (beam_close s).owner = s.owner := by
  unfold beam_close
  split <;> rfl

theorem beam_close_send_pool (s : Beam) :
    (beam_close s).send_pool = s.send_pool := by
  unfold beam_close
  split <;> rfl

theorem beam_close_recv_pool (s : Beam) :
    (beam_close s).recv_pool = s.recv_pool := by
  unfold beam_close
  split <;> rfl

theorem beam_close_max_buf_size (s : Beam) :
    (beam_close s).max_buf_size = s.max_buf_size := by
  unfold beam_close
  split <;> rfl

theorem beam_close_detached (s : Beam) :
    (beam_close s).detached = s.detached := by
  unfold beam_close
  split <;> rfl

theorem beam_close_consumedDeltas (s : Beam) :
    (beam_close s).consumedDeltas = s.consumedDeltas := by
  unfold beam_close
  split <;> rfl

theorem beam_close_producedDeltas (s : Beam) :
    (beam_close s).producedDeltas = s.producedDeltas := by
  unfold beam_close
  split <;> rfl

theorem receivePass_aborted (bbPool : Option Nat) (block : Block) (rb : Int)
    (mutexB : Bool) (s : Beam) (bb : List GBucket) (remain : Int) (t : Nat)
    (h : s.aborted = true) :
    receivePass bbPool block rb mutexB s bb remain t =
      .done .econnaborted
        { s with recv_buffer := s.recv_buffer.map fun _ => [] } bb := by
  unfold receivePass
  rw [if_pos h]

theorem receiveGo_aborted (bbPool : Option Nat) (block : Block) (rb : Int)
    (mutexB : Bool) (oracle : List WaitEv) (s : Beam) (bb : List GBucket)
    (remain : Int) (t : Nat) (h : s.aborted = true) :
    receiveGo bbPool block rb mutexB oracle s bb remain t =
      (.econnaborted, { s with recv_buffer := s.recv_buffer.map fun _ => [] }, bb) := by
  cases oracle <;>
    (unfold receiveGo
     rw [receivePass_aborted _ _ _ _ _ _ _ _ h])

theorem recvDrainBuf_none (rb : Int) (s : Beam) (bb : List GBucket) (remain : Int)
    (t : Nat) (h : s.recv_buffer = none) :
    recvDrainBuf rb s bb remain t = (s, bb, remain, t) := by
  unfold recvDrainBuf
  rw [h]

theorem drainSend_nil (rb : Int) (bbPool : Option Nat) (s : Beam) (bb : List GBucket)
    (remain : Int) (t : Nat) (h : s.send_list = []) :
    drainSend rb bbPool s bb remain t = (s, bb, remain, t) := by
  unfold drainSend
  rw [h]
  rfl

theorem recvPutBack_skip (rb : Int) (s : Beam) (bb : List GBucket) (remain : Int)
    (h : ¬(0 < rb ∧ remain < 0)) :
    recvPutBack rb s bb remain = (s, bb) := by
  unfold recvPutBack
  rw [if_neg h]

theorem recvStep5_not_closed (s : Beam) (bb : List GBucket) (t : Nat)
    (h : s.closed = false) :
    recvStep5 s bb t = (s, bb, t) := by
  unfold recvStep5
  rw [h]
  simp

theorem beam_send_cleanup_proxies (s : Beam) :
    (beam_send_cleanup s).proxies = [] := by
  unfold beam_send_cleanup r_purge_sent
  rfl

theorem beam_send_cleanup_detached (s : Beam) :
    (beam_send_cleanup s).detached =
      s.detached ++ s.proxies.map (fun (p : Proxy) => (⟨p.n, false, none⟩ : Proxy)) := by
  unfold beam_send_cleanup r_purge_sent
  dsimp only
  rw [report_consumption_detached, report_consumption_proxies]

/-! ## Claim C1: wait-empty -/

/-- Example state for C1: the send queue is empty but one proxy is live. -/
def exC1 : Beam := { proxies := [⟨0, true, some 1⟩] }

/-- C1, counterexample: the claim says wait-empty succeeds only when the send
queue is empty AND no proxy is live, and that non-blocking mode returns
*again* whenever that conjunction fails.  On `exC1` the conjunction fails
(one proxy is live), yet wait-empty returns success in both modes, because
the loop in `h2_beam_wait_empty` waits only while send is non-empty AND
proxies exist. -/
theorem C1_wait_empty_counterexample :
    ¬(exC1.send_list.isEmpty = true ∧ exC1.proxies.isEmpty = true) ∧
    (h2_beam_wait_empty exC1 .nonblocking []).1 = Status.success ∧
    (h2_beam_wait_empty exC1 .blocking []).1 = Status.success := by
  refine ⟨by decide, by decide, by decide⟩

/-- C1, amended: wait-empty returns success as soon as the send queue is
empty OR no proxies are live; non-blocking mode returns *again* exactly while
the send queue is non-empty AND live proxies exist (and the state is left
unchanged). -/
theorem C1_wait_empty_amended (s : Beam) :
    (h2_beam_wait_empty s .nonblocking []).1 =
      (if s.send_list.isEmpty || s.proxies.isEmpty then Status.success
       else Status.eagain) ∧
    (h2_beam_wait_empty s .nonblocking []).2 = s := by
  unfold h2_beam_wait_empty waitEmptyGo
  cases hs : s.send_list.isEmpty <;> cases hp : s.proxies.isEmpty <;> simp [hs, hp]

/-! ## Claim C2: splitting at space-left -/

/-- Example beam for C2: `max_buf_size = 4`, empty, so space-left is 4. -/
def exC2 : Beam := { max_buf_size := 4 }

/-- Example chunk for C2: a heap chunk far larger than space-left. -/
def exC2b : Bucket := { bid := 1, kind := .heap, length := 10000 }

/-- C2, counterexample: claim says a data chunk whose length exceeds
space-left is split at space-left (minimum one small buffer, 8000 bytes) with
only the head admitted.  Sending a 10000-byte heap chunk into a beam with
space-left 4 admits the whole chunk unsplit: `append_bucket` only splits on
the unknown-kind fallback path, and heap buckets take the accept-as-is path. -/
theorem C2_split_counterexample :
    calc_space_left exC2 = 4 ∧
    exC2b.length = 10000 ∧
    (h2_beam_send exC2 (some ([exC2b], some 1)) .nonblocking []).1 = Status.success ∧
    (h2_beam_send exC2 (some ([exC2b], some 1)) .nonblocking []).2.send_list = [exC2b] ∧
    (h2_beam_send exC2 (some ([exC2b], some 1)) .nonblocking []).2.sent_bytes = 10000 := by
  refine ⟨by decide, by decide, by decide, by decide, by decide⟩

/-- C2, amended: the split at space-left (raised to the minimum split size
`APR_BUCKET_BUFF_SIZE`) happens only for chunks handled by the read-and-
setaside fallback path (kind unknown to the normalization); those are split
with only the head admitted and the tail left in the brigade.  Chunks the
normalization recognizes — transient, heap and pool — are admitted whole
with no leftover even when their length exceeds space-left (transient and
pool are re-made as heap). -/
theorem C2_split_amended (s : Beam) (b : Bucket) (oracle : List WaitEv)
    (hab : s.aborted = false) (hlen : b.length < SIZEMAX)
    (hsp : 0 < calc_space_left s) :
    (b.kind = .heap →
      append_bucket s b .nonblocking false oracle =
        (.success,
         { s with
           send_list := s.send_list ++ [b],
           sent_bytes := s.sent_bytes + b.length },
         none, oracle)) ∧
    (b.kind = .unknownK →
      (if calc_space_left s < APR_BUCKET_BUFF_SIZE then APR_BUCKET_BUFF_SIZE
       else calc_space_left s) < b.length →
      append_bucket s b .nonblocking false oracle =
        (.success,
         { s with
           send_list := s.send_list ++
             [{ b with
                length :=
                  if calc_space_left s < APR_BUCKET_BUFF_SIZE then APR_BUCKET_BUFF_SIZE
                  else calc_space_left s }],
           sent_bytes := s.sent_bytes +
             (if calc_space_left s < APR_BUCKET_BUFF_SIZE then APR_BUCKET_BUFF_SIZE
              else calc_space_left s),
           nextId := s.nextId + 1 },
         some { b with
           bid := s.nextId,
           length := b.length -
             (if calc_space_left s < APR_BUCKET_BUFF_SIZE then APR_BUCKET_BUFF_SIZE
              else calc_space_left s) },
         oracle)) ∧
    (b.kind = .transient →
      append_bucket s b .nonblocking false oracle =
        (.success,
         { s with
           send_list := s.send_list ++ [{ b with kind := BKind.heap }],
           sent_bytes := s.sent_bytes + b.length },
         none, oracle)) ∧
    (b.kind = .pool →
      append_bucket s b .nonblocking false oracle =
        (.success,
         { s with
           send_list := s.send_list ++ [{ b with kind := BKind.heap }],
           sent_bytes := s.sent_bytes + b.length },
         none, oracle)) := by
  have hw : r_wait_space .nonblocking false s oracle =
      (.success, s, calc_space_left s, oracle) := by
    cases oracle with
    | nil => simp [r_wait_space, hab]
    | cons ev rest => simp [r_wait_space, hab]
  have hne : b.length ≠ SIZEMAX := Nat.ne_of_lt hlen
  have hbeq : (b.length == SIZEMAX) = false := by
    simp [hne]
  refine ⟨?_, ?_, ?_, ?_⟩
  · intro hk
    unfold append_bucket
    simp only [hk, BKind.isMeta, hbeq, Bool.and_false, Bool.false_eq_true,
      reduceCtorEq, reduceIte]
    split
    · rw [hw]
      simp only [ne_eq, not_true_eq_false, if_false]
      have hne0 : ¬(calc_space_left s = 0) := by omega
      rw [if_neg hne0]
      simp [normalizeAdmit, admitBucket, hk]
    · simp [normalizeAdmit, admitBucket, hk]
  · intro hk hsplit
    have hsp2 : calc_space_left s < b.length := by
      revert hsplit
      split <;> intro hsplit <;> omega
    unfold append_bucket
    simp only [hk, BKind.isMeta, hbeq, Bool.and_false, Bool.false_eq_true,
      reduceCtorEq, reduceIte]
    rw [if_pos hsp2, hw]
    simp only [ne_eq, not_true_eq_false, if_false]
    have hne0 : ¬(calc_space_left s = 0) := by omega
    rw [if_neg hne0]
    unfold normalizeAdmit
    simp only [hk]
    unfold fallbackRead
    rw [if_pos hsplit]
    dsimp only
    have hmr : materializeRead { b with
        length :=
          if calc_space_left s < APR_BUCKET_BUFF_SIZE then APR_BUCKET_BUFF_SIZE
          else calc_space_left s } =
        { b with
          length :=
            if calc_space_left s < APR_BUCKET_BUFF_SIZE then APR_BUCKET_BUFF_SIZE
            else calc_space_left s } := by
      unfold materializeRead
      rw [if_neg]
      simp only
      omega
    rw [hmr]
    simp [admitBucket, hk]
  · intro hk
    unfold append_bucket
    simp only [hk, BKind.isMeta, hbeq, Bool.and_false, Bool.false_eq_true,
      reduceCtorEq, reduceIte]
    split
    · rw [hw]
      simp only [ne_eq, not_true_eq_false, if_false]
      have hne0 : ¬(calc_space_left s = 0) := by omega
      rw [if_neg hne0]
      simp [normalizeAdmit, admitBucket, hk]
    · simp [normalizeAdmit, admitBucket, hk]
  · intro hk
    unfold append_bucket
    simp only [hk, BKind.isMeta, hbeq, Bool.and_false, Bool.false_eq_true,
      reduceCtorEq, reduceIte]
    split
    · rw [hw]
      simp only [ne_eq, not_true_eq_false, if_false]
      have hne0 : ¬(calc_space_left s = 0) := by omega
      rw [if_neg hne0]
      simp [normalizeAdmit, admitBucket, hk]
    · simp [normalizeAdmit, admitBucket, hk]


/-- Witness beam for C2. -/
def wC2s : Beam := { max_buf_size := 4 }

/-- Witness chunk for C2: an unknown-kind chunk of 10000 bytes. -/
def wC2b : Bucket := { bid := 7, kind := .unknownK, length := 10000, readLen := 10000 }

/-- Witness chunk for C2: a transient chunk of 10000 bytes. -/
def wC2t : Bucket := { bid := 8, kind := .transient, length := 10000, readLen := 10000 }

/-- Witness chunk for C2: a pool chunk of 10000 bytes. -/
def wC2p : Bucket := { bid := 9, kind := .pool, length := 10000, readLen := 10000 }

/-- C2 witness: on a beam with space-left 4, a 10000-byte unknown-kind chunk
is split at the minimum split size 8000 — the head (8000 bytes) is admitted
and the 2000-byte tail is left over — while 10000-byte transient and pool
chunks are admitted whole (as heap) with no leftover. -/
theorem C2_split_witness :
    wC2s.aborted = false ∧ wC2b.length < SIZEMAX ∧ 0 < calc_space_left wC2s ∧
    (append_bucket wC2s wC2b .nonblocking false []).2.2.1 =
      some { wC2b with bid := wC2s.nextId, length := 2000 } ∧
    (append_bucket wC2s wC2b .nonblocking false []).2.1.sent_bytes = 8000 ∧
    (append_bucket wC2s wC2t .nonblocking false []).2.2.1 = none ∧
    (append_bucket wC2s wC2t .nonblocking false []).2.1.sent_bytes = 10000 ∧
    (append_bucket wC2s wC2t .nonblocking false []).2.1.send_list =
      [{ wC2t with kind := BKind.heap }] ∧
    (append_bucket wC2s wC2p .nonblocking false []).2.2.1 = none ∧
    (append_bucket wC2s wC2p .nonblocking false []).2.1.sent_bytes = 10000 ∧
    (append_bucket wC2s wC2p .nonblocking false []).2.1.send_list =
      [{ wC2p with kind := BKind.heap }] := by
  have h := (C2_split_amended wC2s wC2b [] (by decide) (by decide) (by decide)).2.1
      (by decide) (by decide)
  have ht := (C2_split_amended wC2s wC2t [] (by decide) (by decide) (by decide)).2.2.1
      (by decide)
  have hp := (C2_split_amended wC2s wC2p [] (by decide) (by decide) (by decide)).2.2.2
      (by decide)
  refine ⟨by decide, by decide, by decide, ?_, ?_, ?_, ?_, ?_, ?_, ?_, ?_⟩
  · rw [h]
    decide
  · rw [h]
    decide
  · rw [ht]
  · rw [ht]
    decide
  · rw [ht]
    decide
  · rw [hp]
  · rw [hp]
    decide
  · rw [hp]
    decide

/-! ## Claim C3: operations after abort -/

/-- C3 (confirmed): once a beam is aborted, a send returns
*connection-aborted* with its brigade moved to the send queue without
normalization, and a receive returns *connection-aborted* with the
recv_buffer emptied. -/
theorem C3_aborted_send_receive (s : Beam) (br : List Bucket) (pool bbPool : Option Nat)
    (block block2 : Block) (rbytes : Int) (or1 or2 : List WaitEv)
    (h : s.aborted = true) :
    (h2_beam_send s (some (br, pool)) block or1).1 = .econnaborted ∧
    (h2_beam_send s (some (br, pool)) block or1).2.send_list = s.send_list ++ br ∧
    (h2_beam_receive s [] bbPool block2 rbytes or2).1 = .econnaborted ∧
    (h2_beam_receive s [] bbPool block2 rbytes or2).2.1.recv_buffer =
      s.recv_buffer.map (fun _ => []) := by
  refine ⟨?_, ?_, ?_, ?_⟩
  · simp [h2_beam_send, beam_set_send_pool_aborted, r_purge_sent, h]
  · simp [h2_beam_send, beam_set_send_pool_aborted, r_purge_sent, h, move_to_hold,
      report_consumption_send_list, beam_set_send_pool_send_list]
  · unfold h2_beam_receive
    rw [receiveGo_aborted _ _ _ _ _ _ _ _ _ h]
  · unfold h2_beam_receive
    rw [receiveGo_aborted _ _ _ _ _ _ _ _ _ h]

/-- Witness state for C3: an aborted beam with one queued chunk and a
non-empty recv_buffer. -/
def wC3 : Beam :=
  { aborted := true, send_list := [{ bid := 3, kind := .heap, length := 2 }],
    recv_buffer := some [⟨.dataG, 1⟩] }

/-- C3 witness at a concrete aborted beam. -/
theorem C3_witness :
    wC3.aborted = true ∧
    (h2_beam_send wC3 (some ([{ bid := 9, kind := .heap, length := 5 }], some 1))
        .blocking []).1 = .econnaborted ∧
    (h2_beam_send wC3 (some ([{ bid := 9, kind := .heap, length := 5 }], some 1))
        .blocking []).2.send_list =
      wC3.send_list ++ [{ bid := 9, kind := .heap, length := 5 }] ∧
    (h2_beam_receive wC3 [] (some 2) .blocking 0 []).1 = .econnaborted ∧
    (h2_beam_receive wC3 [] (some 2) .blocking 0 []).2.1.recv_buffer = some [] := by
  have h := C3_aborted_send_receive wC3 [{ bid := 9, kind := .heap, length := 5 }]
    (some 1) (some 2) .blocking .blocking 0 [] [] (by decide)
  refine ⟨by decide, h.1, h.2.1, h.2.2.1, ?_⟩
  rw [h.2.2.2]
  decide

/-! ## Claim C5: proxy read and detach on destroy -/

/-- C5 (confirmed): a proxy read with a live source-chunk backpointer returns
the byte window `[start, start+length)`; with a nulled backpointer it fails
with *connection-reset* and length 0; and destroy's producer-cleanup (run
when the producer owns the beam) detaches every live proxy with both
pointers nulled. -/
theorem C5_proxy_read_reset (data : List Nat) (bstart blength : Nat) (s : Beam)
    (hin : bstart + blength ≤ data.length) (howner : s.owner = .send) :
    (beam_bucket_read (some data) bstart blength).1 = .success ∧
    (beam_bucket_read (some data) bstart blength).2.length = blength ∧
    (∀ j, j < blength →
      (beam_bucket_read (some data) bstart blength).2.get? j = data.get? (bstart + j)) ∧
    beam_bucket_read none bstart blength = (.econnreset, []) ∧
    (h2_beam_destroy s).2.proxies = [] ∧
    (h2_beam_destroy s).2.detached =
      s.detached ++ s.proxies.map (fun (p : Proxy) => (⟨p.n, false, none⟩ : Proxy)) := by
  have ho : (beam_close { s with birthHookArmed := false }).owner = Owner.send := by
    rw [beam_close_owner]
    exact howner
  refine ⟨rfl, ?_, ?_, rfl, ?_, ?_⟩
  · simp [beam_bucket_read]
    omega
  · intro j hj
    simp only [beam_bucket_read]
    rw [List.get?_take hj, List.get?_drop]
  · unfold h2_beam_destroy beam_cleanup
    dsimp only
    rw [ho]
    dsimp only
    simp [beam_send_cleanup_proxies]
  · unfold h2_beam_destroy beam_cleanup
    dsimp only
    rw [ho]
    dsimp only
    simp [beam_send_cleanup_detached, beam_close_detached, beam_close_proxies]

/-- Witness state for C5: a producer-owned beam holding one live proxy. -/
def wC5 : Beam := { owner := .send, proxies := [⟨4, true, some 11⟩] }

/-- C5 witness at concrete bytes [10, 20, 30, 40] and window [1, 3). -/
theorem C5_witness :
    1 + 2 ≤ [10, 20, 30, 40].length ∧
    (beam_bucket_read (some [10, 20, 30, 40]) 1 2).2 = [20, 30] ∧
    beam_bucket_read none 1 2 = (.econnreset, []) ∧
    (h2_beam_destroy wC5).2.detached = [⟨4, false, none⟩] := by
  have h := C5_proxy_read_reset [10, 20, 30, 40] 1 2 wC5 (by decide) (by decide)
  refine ⟨by decide, by decide, h.2.2.2.1, ?_⟩
  rw [h.2.2.2.2.2]
  decide


/-! ## Claim C6: the emitted notification's hold scan -/

theorem holdScan_spec (bid : Nat) (pre post : List Bucket) (src : Bucket)
    (hsrc : src.bid = bid) (hpre : ∀ b ∈ pre, b.bid ≠ bid) :
    holdScan bid (pre ++ src :: post) =
      (pre.filter (fun b => !b.kind.isMeta) ++ post,
       pre.filter (fun b => b.kind.isMeta) ++ [src]) := by
  induction pre with
  | nil =>
    simp [holdScan, hsrc]
  | cons b rest ih =>
    have hb : b.bid ≠ bid := hpre b (by simp)
    have ih2 := ih (fun x hx => hpre x (by simp [hx]))
    by_cases hm : b.kind.isMeta = true <;>
      simp [holdScan, hb, hm, ih2]

/-- C6 (confirmed): when the dropped proxy's source-chunk backpointer is in
hold, the emitted notification moves to purge exactly the metadata chunks in
front of the source chunk and the source chunk itself, leaves the data
chunks in front in hold together with everything after the source chunk,
stops the scan at the source chunk, and nulls the proxy's backpointer. -/
theorem C6_emitted_hold_scan (s : Beam) (i : Nat) (p : Proxy) (bid : Nat)
    (pre post : List Bucket) (src : Bucket)
    (hp : s.proxies.get? i = some p)
    (hbred : p.bred = some bid)
    (hhold : s.hold_list = pre ++ src :: post)
    (hsrc : src.bid = bid)
    (hpre : ∀ b ∈ pre, b.bid ≠ bid)
    (hmx : s.hasEnter = true) :
    (h2_beam_emitted s i).1.purge_list =
      s.purge_list ++ (pre.filter (fun b => b.kind.isMeta) ++ [src]) ∧
    (h2_beam_emitted s i).1.hold_list =
      pre.filter (fun b => !b.kind.isMeta) ++ post ∧
    (h2_beam_emitted s i).1.proxies = s.proxies.eraseIdx i ∧
    (h2_beam_emitted s i).2 = some { p with bred := none } := by
  have hany : (s.hold_list.any fun b => b.bid = bid) = true := by
    rw [hhold]
    simp only [List.any_append, List.any_cons, Bool.or_eq_true]
    right
    left
    simp [hsrc]
  have hscan := holdScan_spec bid pre post src hsrc hpre
  unfold h2_beam_emitted
  rw [hp]
  try dsimp only
  rw [hbred]
  try dsimp only
  rw [hany]
  try dsimp only
  rw [hhold, hscan]
  simp [hmx]

/-- Witness state for C6: hold = [meta flush, data, src]; the proxy for
`src` (id 30) is dropped.  The flush moves to purge with src; the data chunk
(id 20) stays in hold. -/
def wC6 : Beam :=
  { hasEnter := true,
    proxies := [⟨0, true, some 30⟩],
    hold_list :=
      [{ bid := 10, kind := .flush, length := 0 },
       { bid := 20, kind := .heap, length := 4 },
       { bid := 30, kind := .heap, length := 5 }],
    purge_list := [{ bid := 1, kind := .heap, length := 1 }] }

/-- C6 witness at the concrete beam `wC6`. -/
theorem C6_emitted_witness :
    (h2_beam_emitted wC6 0).1.purge_list =
      [{ bid := 1, kind := .heap, length := 1 },
       { bid := 10, kind := .flush, length := 0 },
       { bid := 30, kind := .heap, length := 5 }] ∧
    (h2_beam_emitted wC6 0).1.hold_list = [{ bid := 20, kind := .heap, length := 4 }] ∧
    (h2_beam_emitted wC6 0).1.proxies = [] ∧
    (h2_beam_emitted wC6 0).2 = some ⟨0, true, none⟩ := by
  have h := C6_emitted_hold_scan wC6 0 ⟨0, true, some 30⟩ 30
    [{ bid := 10, kind := .flush, length := 0 },
     { bid := 20, kind := .heap, length := 4 }] []
    { bid := 30, kind := .heap, length := 5 }
    (by decide) (by decide) (by decide) (by decide) (by decide) (by decide)
  exact ⟨h.1.trans (by decide), h.2.1.trans (by decide), h.2.2.1.trans (by decide),
    h.2.2.2.trans (by decide)⟩


/-! ## Claim C8: state after a timed-out wait -/

theorem report_consumption_reported_eq (s : Beam) (f : Bool) :
    (report_consumption s f).reported_consumed_bytes = s.received_bytes := by
  unfold report_consumption
  split
  · rfl
  · rename_i hc
    simp only [Bool.or_eq_true, bne_iff_ne, ne_eq, not_or, not_not] at hc
    exact hc.2.symm

theorem calc_space_left_congr (a b : Beam) (h1 : a.send_list = b.send_list)
    (h2 : a.max_buf_size = b.max_buf_size) :
    calc_space_left a = calc_space_left b := by
  unfold calc_space_left calc_buffered
  rw [h1, h2]

/-- Example beam for C8's counterexample: one 4-byte chunk fills the buffer
(`max_buf_size = 4`), a previous chunk was received (4 bytes) but never yet
reported, so `received_bytes = 4` while `reported_consumed_bytes = 0`. -/
def exC8 : Beam :=
  { max_buf_size := 4,
    send_list := [{ bid := 1, kind := .heap, length := 4 }],
    hold_list := [{ bid := 0, kind := .heap, length := 4 }],
    proxies := [⟨0, true, some 0⟩],
    received_bytes := 4,
    reported_consumed_bytes := 0,
    sent_bytes := 8,
    reported_produced_bytes := 8,
    hasEnter := true,
    hasCond := true,
    timeoutPos := true }

/-- C8, counterexample: the claim says a timed-out blocking operation
modifies no counters.  On `exC8` a blocking send that times out still runs
the end-of-send consumption report, changing the counter
`reported_consumed_bytes` from 0 to 4. -/
theorem C8_timeout_counterexample :
    (h2_beam_send exC8 (some ([{ bid := 2, kind := .heap, length := 4 }], some 1))
        .blocking [.tmo]).1 = .timeup ∧
    exC8.reported_consumed_bytes = 0 ∧
    (h2_beam_send exC8 (some ([{ bid := 2, kind := .heap, length := 4 }], some 1))
        .blocking [.tmo]).2.reported_consumed_bytes = 4 := by
  refine ⟨by decide, by decide, by decide⟩

/-- C8, amended: a timed-out blocking receive returns *timed-out* with the
beam exactly as it was when the wait began (only the receiver-pool binding
made on entry).  A timed-out blocking send returns *timed-out* leaving
queues, flags and the sent/received counters unchanged, but it still runs
the end-of-send consumption report, so `reported_consumed_bytes` catches up
to `received_bytes` (firing the consumed callback when one is set). -/
theorem C8_timeout_amended (s u : Beam) (b : Bucket) (pool bbPool : Option Nat)
    (rbytes : Int)
    (h1 : s.aborted = false) (h2 : s.closed = false) (h3 : s.send_list = [])
    (h4 : s.recv_buffer = none) (h5 : s.hasEnter = true) (h6 : s.hasCond = true)
    (h7 : s.timeoutPos = true)
    (g1 : u.aborted = false) (g2 : calc_space_left u = 0) (g3 : b.kind = .heap)
    (g4 : 0 < b.length) (g5 : b.length < SIZEMAX) (g6 : u.hasEnter = true)
    (g7 : u.timeoutPos = true) :
    h2_beam_receive s [] bbPool .blocking rbytes [.tmo] =
      (.timeup, beam_set_recv_pool s bbPool, []) ∧
    ((h2_beam_send u (some ([b], pool)) .blocking [.tmo]).1 = .timeup ∧
     (h2_beam_send u (some ([b], pool)) .blocking [.tmo]).2.send_list = u.send_list ∧
     (h2_beam_send u (some ([b], pool)) .blocking [.tmo]).2.hold_list = u.hold_list ∧
     (h2_beam_send u (some ([b], pool)) .blocking [.tmo]).2.purge_list = [] ∧
     (h2_beam_send u (some ([b], pool)) .blocking [.tmo]).2.proxies = u.proxies ∧
     (h2_beam_send u (some ([b], pool)) .blocking [.tmo]).2.recv_buffer = u.recv_buffer ∧
     (h2_beam_send u (some ([b], pool)) .blocking [.tmo]).2.closed = u.closed ∧
     (h2_beam_send u (some ([b], pool)) .blocking [.tmo]).2.close_sent = u.close_sent ∧
     (h2_beam_send u (some ([b], pool)) .blocking [.tmo]).2.aborted = false ∧
     (h2_beam_send u (some ([b], pool)) .blocking [.tmo]).2.sent_bytes = u.sent_bytes ∧
     (h2_beam_send u (some ([b], pool)) .blocking [.tmo]).2.received_bytes =
       u.received_bytes ∧
     (h2_beam_send u (some ([b], pool)) .blocking [.tmo]).2.reported_consumed_bytes =
       u.received_bytes) := by
  constructor
  · -- receive side
    have hpass : receivePass bbPool .blocking rbytes true s [] rbytes 0 =
        .waitNeeded (beam_set_recv_pool s bbPool) [] rbytes 0 := by
      unfold receivePass
      rw [if_neg (by simp [h1])]
      dsimp only
      rw [recvDrainBuf_none _ _ _ _ _ (by rw [beam_set_recv_pool_recv_buffer]; exact h4)]
      dsimp only
      rw [drainSend_nil _ _ _ _ _ _ (by rw [beam_set_recv_pool_send_list]; exact h3)]
      dsimp only
      rw [recvPutBack_skip _ _ _ _ (by omega)]
      dsimp only
      rw [recvStep5_not_closed _ _ _ (by rw [beam_set_recv_pool_closed]; exact h2)]
      dsimp only
      unfold recvDispatch
      rw [if_neg (by omega)]
      rw [beam_set_recv_pool_closed, h2]
      rw [if_neg (by simp)]
      rw [beam_set_recv_pool_hasCond, h6]
      rfl
    unfold h2_beam_receive
    rw [h5]
    unfold receiveGo
    rw [hpass]
    dsimp only [wait_cond]
    rw [beam_set_recv_pool_timeoutPos, h7]
    rfl
  · -- send side
    have hsp1 : calc_space_left (beam_set_send_pool (r_purge_sent u) pool) = 0 := by
      rw [calc_space_left_congr (beam_set_send_pool (r_purge_sent u) pool) u]
      · exact g2
      · rw [beam_set_send_pool_send_list]
        rfl
      · rw [beam_set_send_pool_max_buf_size]
        rfl
    have hab1 : (beam_set_send_pool (r_purge_sent u) pool).aborted = false := by
      rw [beam_set_send_pool_aborted]
      exact g1
    have htp1 : (report_production (beam_set_send_pool (r_purge_sent u) pool)
        true).timeoutPos = true := by
      rw [report_production_timeoutPos, beam_set_send_pool_timeoutPos]
      exact g7
    have hwait : r_wait_space .blocking true (beam_set_send_pool (r_purge_sent u) pool)
        [WaitEv.tmo] =
        (.timeup, report_production (beam_set_send_pool (r_purge_sent u) pool) true,
         0, []) := by
      unfold r_wait_space
      rw [hsp1, hab1]
      dsimp only [wait_cond]
      rw [htp1]
      rfl
    have happ : append_bucket (beam_set_send_pool (r_purge_sent u) pool) b .blocking true
        [WaitEv.tmo] =
        (.timeup, report_production (beam_set_send_pool (r_purge_sent u) pool) true,
         none, []) := by
      unfold append_bucket
      have hbeq : (b.length == SIZEMAX) = false := by
        simp only [beq_eq_false_iff_ne, ne_eq]
        exact Nat.ne_of_lt g5
      simp only [g3, BKind.isMeta, hbeq, Bool.and_false, Bool.false_eq_true,
        reduceCtorEq, reduceIte]
      rw [hsp1]
      rw [if_pos g4]
      rw [hwait]
      dsimp only
      rw [if_pos (by decide)]
    have hloop : sendLoop .blocking true (beam_set_send_pool (r_purge_sent u) pool) [b]
        [WaitEv.tmo] =
        (.timeup, report_production (beam_set_send_pool (r_purge_sent u) pool) true) := by
      rw [sendLoop_cons, happ]
    have hsend : h2_beam_send u (some ([b], pool)) .blocking [WaitEv.tmo] =
        (.timeup,
         report_consumption
           (report_production
             (report_production (beam_set_send_pool (r_purge_sent u) pool) true) true)
           false) := by
      unfold h2_beam_send
      rw [g6]
      dsimp only
      rw [if_neg (by simp [hab1])]
      dsimp only [List.isEmpty_cons]
      rw [hloop]
      rfl
    rw [hsend]
    refine ⟨rfl, ?_, ?_, ?_, ?_, ?_, ?_, ?_, ?_, ?_, ?_, ?_⟩ <;>
      simp [report_consumption_send_list, report_consumption_hold_list,
        report_consumption_purge_list, report_consumption_proxies,
        report_consumption_recv_buffer, report_consumption_closed,
        report_consumption_close_sent, report_consumption_aborted,
        report_consumption_sent_bytes, report_consumption_received_bytes,
        report_consumption_reported_eq,
        report_production_send_list, report_production_hold_list,
        report_production_purge_list, report_production_proxies,
        report_production_recv_buffer, report_production_closed,
        report_production_close_sent, report_production_aborted,
        report_production_sent_bytes, report_production_received_bytes,
        beam_set_send_pool_send_list, beam_set_send_pool_hold_list,
        beam_set_send_pool_purge_list, beam_set_send_pool_proxies,
        beam_set_send_pool_recv_buffer, beam_set_send_pool_closed,
        beam_set_send_pool_close_sent, beam_set_send_pool_aborted,
        beam_set_send_pool_sent_bytes, beam_set_send_pool_received_bytes,
        r_purge_sent, g1]

/-- Witness states for C8: `wC8r` is an idle open beam for the receive side;
the send side reuses the counterexample state `exC8`. -/
def wC8r : Beam := { hasEnter := true, hasCond := true, timeoutPos := true }

/-- C8 witness at concrete states. -/
theorem C8_timeout_witness :
    h2_beam_receive wC8r [] (some 2) .blocking 7 [.tmo] =
      (.timeup, beam_set_recv_pool wC8r (some 2), []) ∧
    (h2_beam_send exC8 (some ([{ bid := 2, kind := .heap, length := 4 }], some 1))
        .blocking [.tmo]).2.received_bytes = 4 := by
  have h := C8_timeout_amended wC8r exC8 { bid := 2, kind := .heap, length := 4 }
    (some 1) (some 2) 7 (by decide) (by decide) (by decide) (by decide) (by decide)
    (by decide) (by decide) (by decide) (by decide) (by decide) (by decide)
    (by decide) (by decide) (by decide)
  refine ⟨h.1, ?_⟩
  rw [h.2.2.2.2.2.2.2.2.2.2.2.1]
  decide


/-! ## Claim C9: idempotence and abort-composition -/

theorem Beam_upd_closed (x : Beam) (v : Bool) (h : x.closed = v) :
    { x with closed := v } = x := by
  cases x
  subst h
  rfl

theorem Beam_upd_aborted (x : Beam) (v : Bool) (h : x.aborted = v) :
    { x with aborted := v } = x := by
  cases x
  subst h
  rfl

theorem Beam_upd_purge_list (x : Beam) (v : List Bucket) (h : x.purge_list = v) :
    { x with purge_list := v } = x := by
  cases x
  subst h
  rfl

theorem Beam_upd_send_list (x : Beam) (v : List Bucket) (h : x.send_list = v) :
    { x with send_list := v } = x := by
  cases x
  subst h
  rfl

theorem Beam_upd_hold_list (x : Beam) (v : List Bucket) (h : x.hold_list = v) :
    { x with hold_list := v } = x := by
  cases x
  subst h
  rfl

theorem Beam_upd_proxies (x : Beam) (v : List Proxy) (h : x.proxies = v) :
    { x with proxies := v } = x := by
  cases x
  subst h
  rfl

theorem Beam_upd_recv_buffer (x : Beam) (v : Option (List GBucket)) (h : x.recv_buffer = v) :
    { x with recv_buffer := v } = x := by
  cases x
  subst h
  rfl

theorem Beam_upd_recv_pool (x : Beam) (v : Option Nat) (h : x.recv_pool = v) :
    { x with recv_pool := v } = x := by
  cases x
  subst h
  rfl

theorem Beam_upd_send_pool (x : Beam) (v : Option Nat) (h : x.send_pool = v) :
    { x with send_pool := v } = x := by
  cases x
  subst h
  rfl

theorem Beam_upd_birthHookArmed (x : Beam) (v : Bool) (h : x.birthHookArmed = v) :
    { x with birthHookArmed := v } = x := by
  cases x
  subst h
  rfl

theorem Beam_upd_detached (x : Beam) (v : List Proxy) (h : x.detached = v) :
    { x with detached := v } = x := by
  cases x
  subst h
  rfl

theorem Beam_upd_reported_consumed_bytes (x : Beam) (v : Nat) (h : x.reported_consumed_bytes = v) :
    { x with reported_consumed_bytes := v } = x := by
  cases x
  subst h
  rfl

theorem beam_close_eq (x : Beam) : beam_close x = { x with closed := true } := by
  unfold beam_close
  split
  · rfl
  · rename_i h
    exact (Beam_upd_closed x true (by revert h; cases x.closed <;> simp)).symm

theorem beam_close_closed (x : Beam) : (beam_close x).closed = true := by
  rw [beam_close_eq]

theorem report_consumption_of_synced (x : Beam)
    (h : x.received_bytes = x.reported_consumed_bytes) :
    report_consumption x false = x := by
  unfold report_consumption
  rw [if_neg]
  simp [h]

theorem report_consumption_upd_comm3 (x : Beam) (f v : Bool) (p l : List Bucket) :
    report_consumption { x with aborted := v, purge_list := p, send_list := l } f =
      { report_consumption x f with aborted := v, purge_list := p, send_list := l } := by
  unfold report_consumption
  by_cases h : (f || (x.received_bytes != x.reported_consumed_bytes)) = true <;>
    simp [h]

theorem report_consumption_upd_closed (x : Beam) (f w : Bool) :
    report_consumption { x with closed := w } f =
      { report_consumption x f with closed := w } := by
  unfold report_consumption
  by_cases h : (f || (x.received_bytes != x.reported_consumed_bytes)) = true <;>
    simp [h]

theorem abort_aborted (s : Beam) : (h2_beam_abort s).aborted = true := by
  unfold h2_beam_abort
  split
  · rw [report_consumption_aborted]
    rfl
  · rename_i h
    revert h
    cases s.aborted <;> simp

theorem h2_beam_abort_of_aborted (t : Beam) (h : t.aborted = true) :
    h2_beam_abort t = t := by
  unfold h2_beam_abort
  rw [if_neg (by simp [h])]

theorem h2_beam_abort_eq (s : Beam) (h : s.aborted = false) :
    h2_beam_abort s =
      report_consumption
        { s with aborted := true, purge_list := [], send_list := [] } false := by
  unfold h2_beam_abort
  rw [if_pos (by simp [h])]
  rfl

theorem h2_beam_close_eq (s : Beam) :
    (h2_beam_close s).2 =
      report_consumption { s with purge_list := [], closed := true } false := by
  unfold h2_beam_close r_purge_sent
  dsimp only
  rw [beam_close_eq]

theorem h2_beam_close_state_closed (s : Beam) :
    (h2_beam_close s).2.closed = true := by
  rw [h2_beam_close_eq, report_consumption_closed]

theorem h2_beam_close_state_purge (s : Beam) :
    (h2_beam_close s).2.purge_list = [] := by
  rw [h2_beam_close_eq, report_consumption_purge_list]

theorem h2_beam_close_state_synced (s : Beam) :
    (h2_beam_close s).2.received_bytes = (h2_beam_close s).2.reported_consumed_bytes := by
  rw [h2_beam_close_eq, report_consumption_received_bytes,
    report_consumption_reported_eq]

theorem beam_send_cleanup_send_pool (s : Beam) :
    (beam_send_cleanup s).send_pool = none := by
  unfold beam_send_cleanup r_purge_sent
  rfl

theorem beam_send_cleanup_send_list (s : Beam) :
    (beam_send_cleanup s).send_list = [] := by
  unfold beam_send_cleanup r_purge_sent
  dsimp only
  rw [report_consumption_send_list]

theorem beam_send_cleanup_hold_list (s : Beam) :
    (beam_send_cleanup s).hold_list = [] := by
  unfold beam_send_cleanup r_purge_sent
  rfl

theorem beam_send_cleanup_purge_list (s : Beam) :
    (beam_send_cleanup s).purge_list = [] := by
  unfold beam_send_cleanup r_purge_sent
  rfl

theorem beam_send_cleanup_closed (s : Beam) :
    (beam_send_cleanup s).closed = s.closed := by
  unfold beam_send_cleanup r_purge_sent
  dsimp only
  rw [report_consumption_closed]

theorem beam_send_cleanup_owner (s : Beam) :
    (beam_send_cleanup s).owner = s.owner := by
  unfold beam_send_cleanup r_purge_sent
  dsimp only
  rw [report_consumption_owner]

theorem beam_send_cleanup_recv_buffer (s : Beam) :
    (beam_send_cleanup s).recv_buffer = s.recv_buffer := by
  unfold beam_send_cleanup r_purge_sent
  dsimp only
  rw [report_consumption_recv_buffer]

theorem beam_send_cleanup_recv_pool (s : Beam) :
    (beam_send_cleanup s).recv_pool = s.recv_pool := by
  unfold beam_send_cleanup r_purge_sent
  dsimp only
  rw [report_consumption_recv_pool]

theorem beam_send_cleanup_synced (s : Beam) :
    (beam_send_cleanup s).received_bytes = (beam_send_cleanup s).reported_consumed_bytes := by
  unfold beam_send_cleanup r_purge_sent
  dsimp only
  rw [report_consumption_received_bytes, report_consumption_reported_eq]

theorem beam_send_cleanup_of_clean (z : Beam) (h1 : z.purge_list = [])
    (h2 : z.send_list = []) (h3 : z.received_bytes = z.reported_consumed_bytes)
    (h4 : z.proxies = []) (h5 : z.hold_list = []) (h6 : z.send_pool = none) :
    beam_send_cleanup z = z := by
  cases z
  subst h1
  subst h2
  subst h4
  subst h5
  subst h6
  simp only at h3
  subst h3
  simp [beam_send_cleanup, r_purge_sent, report_consumption]


theorem Beam_upd_rb_rp (x : Beam) (h1 : x.recv_buffer = none) (h2 : x.recv_pool = none) :
    { x with recv_buffer := none, recv_pool := none } = x := by
  cases x
  subst h1
  subst h2
  rfl

theorem report_consumption_birthHookArmed (s : Beam) (f : Bool) :
    (report_consumption s f).birthHookArmed = s.birthHookArmed := by
  unfold report_consumption
  split <;> rfl

theorem beam_send_cleanup_birthHookArmed (s : Beam) :
    (beam_send_cleanup s).birthHookArmed = s.birthHookArmed := by
  unfold beam_send_cleanup r_purge_sent
  dsimp only
  rw [report_consumption_birthHookArmed]

theorem beam_cleanup_birthHookArmed (y : Beam) :
    (beam_cleanup y).birthHookArmed = y.birthHookArmed := by
  unfold beam_cleanup
  dsimp only
  split
  · simp [beam_send_cleanup_birthHookArmed, beam_close_eq]
  · split
    · simp [beam_send_cleanup_birthHookArmed, beam_close_eq]
    · simp [beam_close_eq]

theorem beam_cleanup_of_clean (z : Beam)
    (hcl : z.closed = true) (hp : z.purge_list = []) (hs : z.send_list = [])
    (hh : z.hold_list = []) (hx : z.proxies = []) (hsp : z.send_pool = none)
    (hrb : z.recv_buffer = none) (hrp : z.recv_pool = none)
    (hsy : z.received_bytes = z.reported_consumed_bytes) :
    beam_cleanup z = z := by
  unfold beam_cleanup
  rw [beam_close_eq, Beam_upd_closed z true hcl]
  dsimp only
  split
  · rw [beam_send_cleanup_of_clean z hp hs hsy hx hh hsp]
    exact Beam_upd_rb_rp z hrb hrp
  · rw [Beam_upd_rb_rp z hrb hrp]
    rw [if_neg (by simp [hsp])]

theorem beam_cleanup_of_recv_clean (z : Beam)
    (hcl : z.closed = true) (howner : z.owner = .recv) (hsp : z.send_pool = none)
    (hrb : z.recv_buffer = none) (hrp : z.recv_pool = none) :
    beam_cleanup z = z := by
  cases z
  simp only at hcl howner hsp hrb hrp
  subst hcl
  subst howner
  subst hsp
  subst hrb
  subst hrp
  rfl

theorem beam_cleanup_idem (y : Beam) : beam_cleanup (beam_cleanup y) = beam_cleanup y := by
  rcases howner : y.owner with hsend | hrecv
  · have ho : (beam_close y).owner = Owner.send := by
      rw [beam_close_eq]
      exact howner
    have hform : beam_cleanup y =
        { beam_send_cleanup (beam_close y) with
          recv_buffer := none,
          recv_pool := none } := by
      unfold beam_cleanup
      dsimp only
      rw [ho]
    rw [hform]
    apply beam_cleanup_of_clean
    · simp [beam_send_cleanup_closed, beam_close_closed]
    · simp [beam_send_cleanup_purge_list]
    · simp [beam_send_cleanup_send_list]
    · simp [beam_send_cleanup_hold_list]
    · simp [beam_send_cleanup_proxies]
    · simp [beam_send_cleanup_send_pool]
    · rfl
    · rfl
    · simp only
      exact beam_send_cleanup_synced (beam_close y)
  · have ho : (beam_close y).owner = Owner.recv := by
      rw [beam_close_eq]
      exact howner
    have hform : beam_cleanup y =
        (if (beam_close y).send_pool ≠ none then
          beam_send_cleanup { beam_close y with
            recv_buffer := none,
            recv_pool := none }
        else { beam_close y with
          recv_buffer := none,
          recv_pool := none }) := by
      unfold beam_cleanup
      dsimp only
      rw [ho]
    rw [hform]
    split
    · apply beam_cleanup_of_recv_clean
      · simp [beam_send_cleanup_closed, beam_close_closed]
      · simp [beam_send_cleanup_owner, beam_close_eq, howner]
      · simp [beam_send_cleanup_send_pool]
      · simp [beam_send_cleanup_recv_buffer]
      · simp [beam_send_cleanup_recv_pool]
    · rename_i hnp
      simp only [ne_eq, not_not, beam_close_eq] at hnp
      apply beam_cleanup_of_recv_clean
      · simp [beam_close_closed]
      · simp [beam_close_eq, howner]
      · simp [beam_close_eq, hnp]
      · rfl
      · rfl

theorem h2_beam_send_aborted_eq (x : Beam) (br : List Bucket) (pool : Option Nat)
    (block : Block) (oracle : List WaitEv) (h : x.aborted = true) :
    h2_beam_send x (some (br, pool)) block oracle =
      (.econnaborted,
       report_consumption
         (move_to_hold (beam_set_send_pool (r_purge_sent x) pool) br) false) := by
  unfold h2_beam_send
  dsimp only
  rw [if_pos (by rw [beam_set_send_pool_aborted]; exact h)]

theorem beam_set_send_pool_upd_closed (x : Beam) (p : Option Nat) (w : Bool) :
    beam_set_send_pool { x with closed := w } p =
      { beam_set_send_pool x p with closed := w } := by
  unfold beam_set_send_pool
  by_cases h : x.owner = Owner.recv ∧ x.send_pool ≠ p <;> simp [h]


theorem h2_beam_close_fst (x : Beam) :
    (h2_beam_close x).1 = if x.aborted = true then Status.econnaborted else Status.success := by
  unfold h2_beam_close
  dsimp only
  simp [report_consumption_aborted, beam_close_eq, r_purge_sent]

theorem h2_beam_close_state_aborted (x : Beam) :
    (h2_beam_close x).2.aborted = x.aborted := by
  rw [h2_beam_close_eq]
  simp [report_consumption_aborted]

theorem h2_beam_close_idem (s : Beam) :
    (h2_beam_close (h2_beam_close s).2).2 = (h2_beam_close s).2 := by
  rw [h2_beam_close_eq (h2_beam_close s).2]
  rw [show ({ (h2_beam_close s).2 with purge_list := [], closed := true } : Beam) =
        { ({ (h2_beam_close s).2 with purge_list := [] } : Beam) with closed := true } from rfl]
  rw [Beam_upd_purge_list (h2_beam_close s).2 [] (h2_beam_close_state_purge s)]
  rw [Beam_upd_closed (h2_beam_close s).2 true (h2_beam_close_state_closed s)]
  exact report_consumption_of_synced _ (h2_beam_close_state_synced s)

theorem beam_cleanup_closed_absorb (x : Beam) :
    beam_cleanup { x with closed := true } = beam_cleanup x := by
  have hb : beam_close { x with closed := true } = beam_close x := by
    rw [beam_close_eq, beam_close_eq]
  unfold beam_cleanup
  rw [hb]


theorem report_consumption_idem (x : Beam) (f : Bool) :
    report_consumption (report_consumption x f) false = report_consumption x f :=
  report_consumption_of_synced _
    (by rw [report_consumption_received_bytes, report_consumption_reported_eq])

/-! ## Claim C9: lifecycle algebra -/

def wC9s : Beam :=
  { send_list := [{ bid := 0, kind := .heap, length := 7 }], received_bytes := 3,
    proxies := [⟨0, true, some 0⟩] }

def wC9t : Beam := { aborted := true, received_bytes := 5, reported_consumed_bytes := 5 }

/-- C9: close, abort and destroy are idempotent; applying close before or
after an abort lands in the abort state with only the `closed` flag
additionally set; and on an aborted beam that flag is unobservable — send,
receive, close, non-blocking wait-empty and every accessor return the same
results (with successor states again differing at most in `closed`), and
destroy converges to the identical state. -/
theorem C9_lifecycle_idempotence (s t : Beam) (habt : t.aborted = true) :
    (h2_beam_close (h2_beam_close s).2).1 = (h2_beam_close s).1 ∧
    (h2_beam_close (h2_beam_close s).2).2 = (h2_beam_close s).2 ∧
    h2_beam_abort (h2_beam_abort s) = h2_beam_abort s ∧
    (h2_beam_destroy (h2_beam_destroy s).2).2 = (h2_beam_destroy s).2 ∧
    (s.aborted = false →
      h2_beam_abort (h2_beam_close s).2 = { h2_beam_abort s with closed := true } ∧
      (h2_beam_close (h2_beam_abort s)).2 = { h2_beam_abort s with closed := true }) ∧
    (∀ (br : List Bucket) (p : Option Nat) (bl : Block) (orc : List WaitEv),
      (h2_beam_send { t with closed := true } (some (br, p)) bl orc).1 =
          (h2_beam_send t (some (br, p)) bl orc).1 ∧
      (h2_beam_send { t with closed := true } (some (br, p)) bl orc).2 =
        { (h2_beam_send t (some (br, p)) bl orc).2 with closed := true }) ∧
    (∀ (bb : List GBucket) (bp : Option Nat) (bl : Block) (ry : Int)
        (orc : List WaitEv),
      (h2_beam_receive { t with closed := true } bb bp bl ry orc).1 =
          (h2_beam_receive t bb bp bl ry orc).1 ∧
      (h2_beam_receive { t with closed := true } bb bp bl ry orc).2.2 =
          (h2_beam_receive t bb bp bl ry orc).2.2 ∧
      (h2_beam_receive { t with closed := true } bb bp bl ry orc).2.1 =
        { (h2_beam_receive t bb bp bl ry orc).2.1 with closed := true }) ∧
    h2_beam_close { t with closed := true } = h2_beam_close t ∧
    (∀ bl, h2_beam_wait_empty { t with closed := true } bl [] =
      ((h2_beam_wait_empty t bl []).1,
       { (h2_beam_wait_empty t bl []).2 with closed := true })) ∧
    h2_beam_destroy { t with closed := true } = h2_beam_destroy t ∧
    h2_beam_empty { t with closed := true } = h2_beam_empty t ∧
    h2_beam_holds_proxies { t with closed := true } = h2_beam_holds_proxies t ∧
    h2_beam_was_received { t with closed := true } = h2_beam_was_received t ∧
    h2_beam_get_buffered { t with closed := true } = h2_beam_get_buffered t ∧
    h2_beam_get_mem_used { t with closed := true } = h2_beam_get_mem_used t := by
  refine ⟨?_, h2_beam_close_idem s, h2_beam_abort_of_aborted _ (abort_aborted s),
    ?_, ?_, ?_, ?_, ?_, ?_, ?_, rfl, rfl, rfl, rfl, rfl⟩
  · rw [h2_beam_close_fst, h2_beam_close_fst, h2_beam_close_state_aborted]
  · unfold h2_beam_destroy
    dsimp only
    rw [Beam_upd_birthHookArmed _ false (by rw [beam_cleanup_birthHookArmed])]
    exact beam_cleanup_idem _
  · intro h
    constructor
    · rw [h2_beam_close_eq]
      rw [h2_beam_abort_eq _ (by simp [report_consumption_aborted, h])]
      rw [← report_consumption_upd_comm3]
      rw [report_consumption_idem]
      rw [h2_beam_abort_eq s h]
      rw [← report_consumption_upd_closed]
    · rw [h2_beam_close_eq]
      have hp : (h2_beam_abort s).purge_list = [] := by
        rw [h2_beam_abort_eq s h, report_consumption_purge_list]
      rw [show ({ h2_beam_abort s with purge_list := [], closed := true } : Beam) =
            { ({ h2_beam_abort s with purge_list := [] } : Beam) with
              closed := true } from rfl]
      rw [Beam_upd_purge_list _ [] hp]
      apply report_consumption_of_synced
      simp only [h2_beam_abort_eq s h, report_consumption_received_bytes,
        report_consumption_reported_eq]
  · intro br p bl orc
    have habt' : ({ t with closed := true } : Beam).aborted = true := habt
    rw [h2_beam_send_aborted_eq _ br p bl orc habt',
      h2_beam_send_aborted_eq _ br p bl orc habt]
    refine ⟨rfl, ?_⟩
    rw [show r_purge_sent ({ t with closed := true } : Beam) =
          { r_purge_sent t with closed := true } from rfl]
    rw [beam_set_send_pool_upd_closed]
    rw [show move_to_hold
          ({ beam_set_send_pool (r_purge_sent t) p with closed := true } : Beam) br =
          { move_to_hold (beam_set_send_pool (r_purge_sent t) p) br with
            closed := true } from rfl]
    rw [report_consumption_upd_closed]
  · intro bb bp bl ry orc
    have habt' : ({ t with closed := true } : Beam).aborted = true := habt
    unfold h2_beam_receive
    rw [receiveGo_aborted _ _ _ _ _ _ _ _ _ habt', receiveGo_aborted _ _ _ _ _ _ _ _ _ habt]
    exact ⟨rfl, rfl, rfl⟩
  · have h1 : (h2_beam_close { t with closed := true }).1 = (h2_beam_close t).1 := by
      rw [h2_beam_close_fst, h2_beam_close_fst]
    have h2 : (h2_beam_close { t with closed := true }).2 = (h2_beam_close t).2 := by
      rw [h2_beam_close_eq, h2_beam_close_eq]
    exact Prod.ext h1 h2
  · intro bl
    unfold h2_beam_wait_empty waitEmptyGo
    dsimp only
    by_cases h1 : (!t.send_list.isEmpty && !t.proxies.isEmpty) = true
    · by_cases h2 : (bl = Block.nonblocking || !t.hasEnter) = true
      · simp [h1, h2]
      · simp [h1, h2]
    · simp [h1]
  · unfold h2_beam_destroy
    rw [show ({ ({ t with closed := true } : Beam) with birthHookArmed := false } : Beam) =
          { ({ t with birthHookArmed := false } : Beam) with closed := true } from rfl]
    rw [beam_cleanup_closed_absorb]

/-- C9 witness: the sample beams have the stated abort flags, and at them the
idempotence of abort, the abort-absorbing composition and the observational
agreement of close on the closed-flagged variant hold concretely. -/
theorem C9_lifecycle_witness :
    wC9t.aborted = true ∧
    h2_beam_abort (h2_beam_abort wC9s) = h2_beam_abort wC9s ∧
    (wC9s.aborted = false →
      h2_beam_abort (h2_beam_close wC9s).2 = { h2_beam_abort wC9s with closed := true }) ∧
    h2_beam_close { wC9t with closed := true } = h2_beam_close wC9t := by
  have h := C9_lifecycle_idempotence wC9s wC9t (by decide)
  exact ⟨by decide, h.2.2.1, fun hf => (h.2.2.2.2.1 hf).1, h.2.2.2.2.2.2.2.1⟩


/-! ## Claim C10: file chunks do not advance received_bytes -/

theorem beam_set_recv_pool_consumedDeltas (s : Beam) (p : Option Nat) :
    (beam_set_recv_pool s p).consumedDeltas = s.consumedDeltas := by
  unfold beam_set_recv_pool
  split <;> rfl

theorem recvDrainBuf_received (ry : Int) (s : Beam) (bb : List GBucket) (rem : Int)
    (t : Nat) : (recvDrainBuf ry s bb rem t).1.received_bytes = s.received_bytes := by
  unfold recvDrainBuf
  split <;> rfl

theorem recvDrainBuf_consumedDeltas (ry : Int) (s : Beam) (bb : List GBucket)
    (rem : Int) (t : Nat) :
    (recvDrainBuf ry s bb rem t).1.consumedDeltas = s.consumedDeltas := by
  unfold recvDrainBuf
  split <;> rfl

theorem recvDrainBuf_send_list (ry : Int) (s : Beam) (bb : List GBucket) (rem : Int)
    (t : Nat) : (recvDrainBuf ry s bb rem t).1.send_list = s.send_list := by
  unfold recvDrainBuf
  split <;> rfl

theorem recvPutBack_received (ry : Int) (s : Beam) (bb : List GBucket) (rem : Int) :
    (recvPutBack ry s bb rem).1.received_bytes = s.received_bytes := by
  unfold recvPutBack
  repeat' split
  all_goals rfl

theorem recvPutBack_consumedDeltas (ry : Int) (s : Beam) (bb : List GBucket)
    (rem : Int) : (recvPutBack ry s bb rem).1.consumedDeltas = s.consumedDeltas := by
  unfold recvPutBack
  repeat' split
  all_goals rfl

theorem recvStep5_received (s : Beam) (bb : List GBucket) (t : Nat) :
    (recvStep5 s bb t).1.received_bytes = s.received_bytes := by
  unfold recvStep5
  repeat' split
  all_goals rfl

theorem recvStep5_consumedDeltas (s : Beam) (bb : List GBucket) (t : Nat) :
    (recvStep5 s bb t).1.consumedDeltas = s.consumedDeltas := by
  unfold recvStep5
  repeat' split
  all_goals rfl

theorem drainSendGo_received_files (ry : Int) (bp : Option Nat) (l : List Bucket)
    (hf : ∀ b ∈ l, b.kind = BKind.file) :
    ∀ (s : Beam) (bb : List GBucket) (rem : Int) (t : Nat),
      (drainSendGo ry bp l s bb rem t).1.received_bytes = s.received_bytes := by
  induction l with
  | nil => intro s bb rem t; rfl
  | cons b rest ih =>
    intro s bb rem t
    have hb : b.kind = BKind.file := hf b (by simp)
    have hrest : ∀ x ∈ rest, x.kind = BKind.file := fun x hx => hf x (by simp [hx])
    unfold drainSendGo
    rw [hb]
    split
    · split
      · rfl
      · dsimp only
        rw [ih hrest]
    · rfl

theorem drainSendGo_consumedDeltas (ry : Int) (bp : Option Nat) (l : List Bucket) :
    ∀ (s : Beam) (bb : List GBucket) (rem : Int) (t : Nat),
      (drainSendGo ry bp l s bb rem t).1.consumedDeltas = s.consumedDeltas := by
  induction l with
  | nil => intro s bb rem t; rfl
  | cons b rest ih =>
    intro s bb rem t
    unfold drainSendGo
    repeat' split
    all_goals dsimp only
    all_goals try rfl
    all_goals rw [ih]

/-- The beam state a receive pass ends in, whether it finished or must wait. -/
def recvOutState : RecvOut → Beam
  | .done _ s2 _ => s2
  | .waitNeeded s2 _ _ _ => s2

theorem recvOutState_dispatch (bl : Block) (m : Bool) (s : Beam) (bb : List GBucket)
    (rem : Int) (t : Nat) : recvOutState (recvDispatch bl m s bb rem t) = s := by
  unfold recvDispatch
  repeat' split
  all_goals rfl

theorem receiveGo_nil_state (bp : Option Nat) (bl : Block) (ry : Int) (m : Bool)
    (s : Beam) (bb : List GBucket) (rem : Int) (t : Nat) :
    (receiveGo bp bl ry m [] s bb rem t).2.1 =
      recvOutState (receivePass bp bl ry m s bb rem t) := by
  unfold receiveGo
  cases hp : receivePass bp bl ry m s bb rem t <;> simp [recvOutState]

theorem receivePass_files_state (bp : Option Nat) (bl : Block) (ry : Int) (m : Bool)
    (s : Beam) (bb : List GBucket) (rem : Int) (t : Nat)
    (hab : s.aborted = false) (hfiles : ∀ b ∈ s.send_list, b.kind = BKind.file) :
    (recvOutState (receivePass bp bl ry m s bb rem t)).received_bytes =
        s.received_bytes ∧
    (recvOutState (receivePass bp bl ry m s bb rem t)).consumedDeltas =
        s.consumedDeltas := by
  unfold receivePass
  rw [if_neg (by simp [hab])]
  dsimp only
  rw [recvOutState_dispatch]
  unfold drainSend
  have hf2 : ∀ b ∈ (recvDrainBuf ry (beam_set_recv_pool s bp) bb rem t).1.send_list,
      b.kind = BKind.file := by
    rw [recvDrainBuf_send_list, beam_set_recv_pool_send_list]
    exact hfiles
  constructor
  · rw [recvStep5_received, recvPutBack_received, drainSendGo_received_files _ _ _ hf2,
      recvDrainBuf_received, beam_set_recv_pool_received_bytes]
  · rw [recvStep5_consumedDeltas, recvPutBack_consumedDeltas, drainSendGo_consumedDeltas,
      recvDrainBuf_consumedDeltas, beam_set_recv_pool_consumedDeltas]

/-- C10: a receive on a non-aborted beam whose send queue holds only file
buckets leaves `received_bytes` untouched, appends nothing to the history of
consumed-callback deltas, and leaves `h2_beam_was_received` exactly as it
was — in particular still false when no bytes bucket was ever received. -/
theorem C10_file_receive_frame (s : Beam) (bb : List GBucket) (bp : Option Nat)
    (bl : Block) (ry : Int)
    (hab : s.aborted = false) (hfiles : ∀ b ∈ s.send_list, b.kind = BKind.file) :
    (h2_beam_receive s bb bp bl ry []).2.1.received_bytes = s.received_bytes ∧
    (h2_beam_receive s bb bp bl ry []).2.1.consumedDeltas = s.consumedDeltas ∧
    h2_beam_was_received (h2_beam_receive s bb bp bl ry []).2.1 =
      h2_beam_was_received s := by
  have hst : (h2_beam_receive s bb bp bl ry []).2.1 =
      recvOutState (receivePass bp bl ry s.hasEnter s bb ry 0) := by
    unfold h2_beam_receive
    exact receiveGo_nil_state bp bl ry s.hasEnter s bb ry 0
  have h := receivePass_files_state bp bl ry s.hasEnter s bb ry 0 hab hfiles
  refine ⟨hst ▸ h.1, hst ▸ h.2, ?_⟩
  unfold h2_beam_was_received
  rw [hst, h.1]

/-- A beam holding exactly one file bucket, nothing yet received. -/
def wC10 : Beam :=
  { send_list := [{ bid := 0, kind := .file, length := 9000, readPool := some 7 }] }

/-- C10 witness: at `wC10` the file-only receive leaves `received_bytes` at 0,
records no consumed delta, and was-received still answers false. -/
theorem C10_file_receive_witness :
    wC10.aborted = false ∧
    (h2_beam_receive wC10 [] (some 2) .blocking 0 []).2.1.received_bytes = 0 ∧
    (h2_beam_receive wC10 [] (some 2) .blocking 0 []).2.1.consumedDeltas = [] ∧
    h2_beam_was_received (h2_beam_receive wC10 [] (some 2) .blocking 0 []).2.1 = false := by
  have h := C10_file_receive_frame wC10 [] (some 2) .blocking 0 (by decide)
    (by intro b hb; simp [wC10] at hb; rw [hb])
  exact ⟨rfl, h.1, h.2.1, h.2.2⟩


/-! ## A single-threaded trace machine over the beam API

Every public entry point is a pure state transition once the condition
variable oracle is empty (a wait then returns to its caller without another
thread having run, which in the trace model is represented by interleaving
that thread's own operations).  The consumer always presents a fresh empty
brigade to receive, as the HTTP/2 consumers do. -/

inductive Op where
  | send (rb : Option (List Bucket × Option Nat)) (bl : Block)
  | receive (bp : Option Nat) (bl : Block) (ry : Int)
  | close
  | abort
  | waitEmpty (bl : Block)
  | emitted (i : Nat)
  deriving Repr

def stepOp (s : Beam) : Op → Beam
  | .send rb bl => (h2_beam_send s rb bl []).2
  | .receive bp bl ry => (h2_beam_receive s [] bp bl ry []).2.1
  | .close => (h2_beam_close s).2
  | .abort => h2_beam_abort s
  | .waitEmpty bl => (h2_beam_wait_empty s bl []).2
  | .emitted i => (h2_beam_emitted s i).1

def runOps (s : Beam) : List Op → Beam
  | [] => s
  | op :: rest => runOps (stepOp s op) rest

/-! ## Claim C7: callback accounting -/

/-- The callback-accounting invariant: with both callbacks installed, the
sum of the deltas ever passed to each callback equals the corresponding
`reported_*` counter, which never exceeds the byte counter it reports on. -/
def TraceInv (s : Beam) : Prop :=
  s.hasConsumedCb = true ∧ s.hasProducedCb = true ∧
  s.consumedDeltas.sum = s.reported_consumed_bytes ∧
  s.producedDeltas.sum = s.reported_produced_bytes ∧
  s.reported_consumed_bytes ≤ s.received_bytes ∧
  s.reported_produced_bytes ≤ s.sent_bytes

theorem TraceInv_report_consumption (s : Beam) (f : Bool) (h : TraceInv s) :
    TraceInv (report_consumption s f) := by
  obtain ⟨h1, h2, h3, h4, h5, h6⟩ := h
  unfold TraceInv report_consumption
  split
  · refine ⟨h1, h2, ?_, h4, Nat.le_refl _, h6⟩
    simp only [h1, if_true, List.sum_append, List.sum_cons, List.sum_nil]
    omega
  · exact ⟨h1, h2, h3, h4, h5, h6⟩

theorem TraceInv_report_production (s : Beam) (f : Bool) (h : TraceInv s) :
    TraceInv (report_production s f) := by
  obtain ⟨h1, h2, h3, h4, h5, h6⟩ := h
  unfold TraceInv report_production
  split
  · refine ⟨h1, h2, h3, ?_, h5, Nat.le_refl _⟩
    simp only [h2, if_true, List.sum_append, List.sum_cons, List.sum_nil]
    omega
  · exact ⟨h1, h2, h3, h4, h5, h6⟩

theorem TraceInv_close (s : Beam) (h : TraceInv s) : TraceInv (h2_beam_close s).2 := by
  rw [h2_beam_close_eq]
  exact TraceInv_report_consumption _ _ h

theorem TraceInv_abort (s : Beam) (h : TraceInv s) : TraceInv (h2_beam_abort s) := by
  unfold h2_beam_abort
  split
  · exact TraceInv_report_consumption _ _ h
  · exact h

theorem waitEmptyGo_nil_state (m : Bool) (bl : Block) (s : Beam) :
    (waitEmptyGo m bl s []).2 = s := by
  unfold waitEmptyGo
  repeat' split
  all_goals rfl

theorem TraceInv_waitEmpty (s : Beam) (bl : Block) (h : TraceInv s) :
    TraceInv (h2_beam_wait_empty s bl []).2 := by
  unfold h2_beam_wait_empty
  rw [waitEmptyGo_nil_state]
  exact h

theorem TraceInv_emitted (s : Beam) (i : Nat) (h : TraceInv s) :
    TraceInv (h2_beam_emitted s i).1 := by
  unfold h2_beam_emitted r_purge_sent
  dsimp only
  repeat' split
  all_goals dsimp only
  all_goals exact h


theorem TraceInv_admitBucket (s : Beam) (b : Bucket) (lo : Option Bucket)
    (orc : List WaitEv) (h : TraceInv s) :
    TraceInv (admitBucket s b lo orc).2.1 ∧ (admitBucket s b lo orc).2.2.2 = orc := by
  obtain ⟨h1, h2, h3, h4, h5, h6⟩ := h
  exact ⟨⟨h1, h2, h3, h4, h5, Nat.le_trans h6 (Nat.le_add_right _ _)⟩, rfl⟩

theorem TraceInv_fallbackRead (s : Beam) (b : Bucket) (sp : Nat) (orc : List WaitEv)
    (h : TraceInv s) :
    TraceInv (fallbackRead s b sp orc).2.1 ∧ (fallbackRead s b sp orc).2.2.2 = orc := by
  unfold fallbackRead
  dsimp only
  repeat' split
  all_goals exact TraceInv_admitBucket _ _ _ _ h

theorem TraceInv_normalizeAdmit (s : Beam) (b : Bucket) (sp : Nat) (orc : List WaitEv)
    (h : TraceInv s) :
    TraceInv (normalizeAdmit s b sp orc).2.1 ∧ (normalizeAdmit s b sp orc).2.2.2 = orc := by
  unfold normalizeAdmit
  dsimp only
  repeat' split
  all_goals first
    | exact TraceInv_admitBucket _ _ _ _ h
    | exact TraceInv_fallbackRead _ _ _ _ h

theorem r_wait_space_nil (bl : Block) (m : Bool) (s : Beam) :
    (r_wait_space bl m s []).2.1 = s ∧ (r_wait_space bl m s []).2.2.2 = [] := by
  unfold r_wait_space
  dsimp only
  repeat' split
  all_goals exact ⟨rfl, rfl⟩

theorem TraceInv_append_bucket (s : Beam) (b : Bucket) (bl : Block) (m : Bool)
    (h : TraceInv s) :
    TraceInv (append_bucket s b bl m []).2.1 ∧ (append_bucket s b bl m []).2.2.2 = [] := by
  obtain ⟨hw1, hw2⟩ := r_wait_space_nil bl m s
  unfold append_bucket
  dsimp only
  rw [hw1, hw2]
  repeat' split
  all_goals first
    | exact ⟨h, rfl⟩
    | exact TraceInv_normalizeAdmit _ _ _ _ h

theorem TraceInv_sendLoopF (bl : Block) (m : Bool) :
    ∀ (n : Nat) (s : Beam) (l : List Bucket), TraceInv s →
      TraceInv (sendLoopF bl m n s l []).2 := by
  intro n
  induction n with
  | zero =>
    intro s l h
    unfold sendLoopF
    cases l <;> exact h
  | succ n ih =>
    intro s l h
    cases l with
    | nil => exact h
    | cons b rest =>
      have hap := TraceInv_append_bucket s b bl m h
      show TraceInv (match append_bucket s b bl m [] with
        | (.success, s2, none, or2) => sendLoopF bl m n s2 rest or2
        | (.success, s2, some tail, or2) => sendLoopF bl m n s2 (tail :: rest) or2
        | (st, s2, _, _) => (st, s2)).2
      rcases happ : append_bucket s b bl m [] with ⟨st, s2, lo, or2⟩
      rw [happ] at hap
      dsimp only at hap
      obtain ⟨h2, horc⟩ := hap
      subst horc
      cases st <;> cases lo <;> first | exact ih _ _ h2 | exact h2

theorem TraceInv_beam_set_send_pool (s : Beam) (p : Option Nat) (h : TraceInv s) :
    TraceInv (beam_set_send_pool s p) := by
  unfold beam_set_send_pool
  split <;> exact h

theorem TraceInv_send (s : Beam) (rb : Option (List Bucket × Option Nat)) (bl : Block)
    (h : TraceInv s) : TraceInv (h2_beam_send s rb bl []).2 := by
  unfold h2_beam_send
  dsimp only
  apply TraceInv_report_consumption
  rcases rb with _ | ⟨br, p⟩
  · dsimp only
    split
    · exact h
    · exact h
  · dsimp only
    have hsp : TraceInv (beam_set_send_pool (r_purge_sent s) p) :=
      TraceInv_beam_set_send_pool _ _ h
    split
    · exact hsp
    · exact TraceInv_report_production _ _ (TraceInv_sendLoopF bl s.hasEnter _ _ _ hsp)


theorem TraceInv_recvDrainBuf (ry : Int) (s : Beam) (bb : List GBucket) (rem : Int)
    (t : Nat) (h : TraceInv s) : TraceInv (recvDrainBuf ry s bb rem t).1 := by
  unfold recvDrainBuf
  split
  · exact h
  · exact h

theorem TraceInv_drainSendGo (ry : Int) (bp : Option Nat) (l : List Bucket) :
    ∀ (s : Beam) (bb : List GBucket) (rem : Int) (t : Nat), TraceInv s →
      TraceInv (drainSendGo ry bp l s bb rem t).1 := by
  induction l with
  | nil => intro s bb rem t h; exact h
  | cons b rest ih =>
    intro s bb rem t h
    obtain ⟨h1, h2, h3, h4, h5, h6⟩ := h
    unfold drainSendGo
    repeat' split
    all_goals dsimp only
    all_goals first
      | exact ⟨h1, h2, h3, h4, h5, h6⟩
      | exact ih _ _ _ _ ⟨h1, h2, h3, h4, h5, h6⟩
      | exact ih _ _ _ _ ⟨h1, h2, h3, h4, Nat.le_trans h5 (Nat.le_add_right _ _), h6⟩

theorem TraceInv_recvPutBack (ry : Int) (s : Beam) (bb : List GBucket) (rem : Int)
    (h : TraceInv s) : TraceInv (recvPutBack ry s bb rem).1 := by
  unfold recvPutBack
  repeat' split
  all_goals exact h

theorem TraceInv_recvStep5 (s : Beam) (bb : List GBucket) (t : Nat)
    (h : TraceInv s) : TraceInv (recvStep5 s bb t).1 := by
  unfold recvStep5
  repeat' split
  all_goals exact h

theorem TraceInv_beam_set_recv_pool (s : Beam) (p : Option Nat) (h : TraceInv s) :
    TraceInv (beam_set_recv_pool s p) := by
  unfold beam_set_recv_pool
  split <;> exact h

theorem TraceInv_receivePass (bp : Option Nat) (bl : Block) (ry : Int) (m : Bool)
    (s : Beam) (bb : List GBucket) (rem : Int) (t : Nat) (h : TraceInv s) :
    TraceInv (recvOutState (receivePass bp bl ry m s bb rem t)) := by
  unfold receivePass
  split
  · exact h
  · dsimp only
    rw [recvOutState_dispatch]
    apply TraceInv_recvStep5
    apply TraceInv_recvPutBack
    unfold drainSend
    apply TraceInv_drainSendGo
    apply TraceInv_recvDrainBuf
    exact TraceInv_beam_set_recv_pool _ _ h

theorem TraceInv_receive (s : Beam) (bp : Option Nat) (bl : Block) (ry : Int)
    (h : TraceInv s) : TraceInv (h2_beam_receive s [] bp bl ry []).2.1 := by
  unfold h2_beam_receive
  rw [receiveGo_nil_state]
  exact TraceInv_receivePass _ _ _ _ _ _ _ _ h

theorem TraceInv_stepOp (s : Beam) (op : Op) (h : TraceInv s) :
    TraceInv (stepOp s op) := by
  cases op with
  | send rb bl => exact TraceInv_send s rb bl h
  | receive bp bl ry => exact TraceInv_receive s bp bl ry h
  | close => exact TraceInv_close s h
  | abort => exact TraceInv_abort s h
  | waitEmpty bl => exact TraceInv_waitEmpty s bl h
  | emitted i => exact TraceInv_emitted s i h

theorem TraceInv_runOps (s : Beam) (ops : List Op) (h : TraceInv s) :
    TraceInv (runOps s ops) := by
  induction ops generalizing s with
  | nil => exact h
  | cons op rest ih => exact ih _ (TraceInv_stepOp s op h)

/-- C7: along any trace of beam operations from a state satisfying the
accounting invariant (in particular a fresh beam with both callbacks
installed), the cumulative deltas ever passed to the consumed-callback sum
to `reported_consumed_bytes`, which never exceeds `received_bytes` and
catches up to it whenever a report runs — after a further close the sum
equals `received_bytes` itself; symmetrically the produced-callback deltas
sum to `reported_produced_bytes`, which a non-aborted send catches up to
`sent_bytes`. -/
theorem runOps_append (s0 : Beam) (a b : List Op) :
    runOps s0 (a ++ b) = runOps (runOps s0 a) b := by
  induction a generalizing s0 with
  | nil => rfl
  | cons op rest ih => exact ih (stepOp s0 op)

theorem C7_callback_accounting (s0 : Beam) (ops : List Op) (h0 : TraceInv s0) :
    (runOps s0 ops).consumedDeltas.sum = (runOps s0 ops).reported_consumed_bytes ∧
    (runOps s0 ops).producedDeltas.sum = (runOps s0 ops).reported_produced_bytes ∧
    (runOps s0 ops).reported_consumed_bytes ≤ (runOps s0 ops).received_bytes ∧
    (runOps s0 ops).reported_produced_bytes ≤ (runOps s0 ops).sent_bytes ∧
    (runOps s0 (ops ++ [Op.close])).consumedDeltas.sum =
      (runOps s0 (ops ++ [Op.close])).received_bytes := by
  have h := TraceInv_runOps s0 ops h0
  have hrun : runOps s0 (ops ++ [Op.close]) = (h2_beam_close (runOps s0 ops)).2 := by
    rw [runOps_append]
    rfl
  have hc := TraceInv_close (runOps s0 ops) h
  refine ⟨h.2.2.1, h.2.2.2.1, h.2.2.2.2.1, h.2.2.2.2.2, ?_⟩
  rw [hrun, hc.2.2.1, h2_beam_close_state_synced]

/-- A fresh beam with both callbacks installed. -/
def wC7s0 : Beam := { hasConsumedCb := true, hasProducedCb := true, max_buf_size := 16 }

/-- A small trace: send two heap buckets, receive them, then close. -/
def wC7ops : List Op :=
  [Op.send (some ([{ bid := 0, kind := .heap, length := 5 },
                   { bid := 1, kind := .heap, length := 4 }], none)) .nonblocking,
   Op.receive (some 2) .nonblocking 0,
   Op.close]

/-- C7 witness: on the concrete trace the accounting equalities hold, and
after the closing report the consumed deltas sum to `received_bytes`. -/
theorem C7_callback_witness :
    (runOps wC7s0 wC7ops).consumedDeltas.sum =
        (runOps wC7s0 wC7ops).reported_consumed_bytes ∧
    (runOps wC7s0 (wC7ops ++ [Op.close])).consumedDeltas.sum =
      (runOps wC7s0 (wC7ops ++ [Op.close])).received_bytes := by
  have h := C7_callback_accounting wC7s0 wC7ops
    ⟨rfl, rfl, rfl, rfl, Nat.le_refl _, Nat.le_refl _⟩
  exact ⟨h.1, h.2.2.2.2⟩

/-! ## Claim C4: end-of-stream delivery -/

/-- Number of end-of-stream buckets in a red list. -/
def eosB (l : List Bucket) : Nat := l.countP fun b => b.kind == BKind.eos

/-- Number of end-of-stream buckets in a green list. -/
def eosG (l : List GBucket) : Nat := l.countP fun g => g.kind == GKind.eos

/-- Number of end-of-stream buckets parked in the recv_buffer. -/
def eosRB (s : Beam) : Nat :=
  match s.recv_buffer with
  | none => 0
  | some l => eosG l

theorem eosB_append (a b : List Bucket) : eosB (a ++ b) = eosB a + eosB b := by
  simp [eosB, List.countP_append]

theorem eosG_append (a b : List GBucket) : eosG (a ++ b) = eosG a + eosG b := by
  simp [eosG, List.countP_append]

theorem eosB_cons (b : Bucket) (l : List Bucket) :
    eosB (b :: l) = (if b.kind = BKind.eos then 1 else 0) + eosB l := by
  by_cases hk : b.kind = BKind.eos <;>
    simp [eosB, List.countP_cons, hk] <;> try omega

theorem eosG_cons (g : GBucket) (l : List GBucket) :
    eosG (g :: l) = (if g.kind = GKind.eos then 1 else 0) + eosG l := by
  by_cases hk : g.kind = GKind.eos <;>
    simp [eosG, List.countP_cons, hk] <;> try omega

theorem eosB_dropLast_cons (b : Bucket) (l : List Bucket)
    (h : eosB ((b :: l).dropLast) = 0) : eosB l.dropLast = 0 := by
  cases l with
  | nil => rfl
  | cons c rest =>
    rw [show (b :: c :: rest).dropLast = b :: (c :: rest).dropLast from rfl,
      eosB_cons] at h
    omega

theorem eosB_head_eos_last (b : Bucket) (l : List Bucket) (hb : b.kind = BKind.eos)
    (h : eosB ((b :: l).dropLast) = 0) : l = [] := by
  cases l with
  | nil => rfl
  | cons c rest =>
    rw [show (b :: c :: rest).dropLast = b :: (c :: rest).dropLast from rfl,
      eosB_cons, if_pos hb] at h
    omega

theorem drainRecv_c4 (ry : Int) :
    ∀ (l bb : List GBucket) (rem : Int) (t : Nat), eosG l = 0 →
      eosG (drainRecv ry l bb rem t).2.1 = eosG bb ∧
      eosG (drainRecv ry l bb rem t).1 = 0 := by
  intro l
  induction l with
  | nil => intro bb rem t h; exact ⟨rfl, rfl⟩
  | cons g rest ih =>
    intro bb rem t h
    rw [eosG_cons] at h
    have hg : ¬ g.kind = GKind.eos := by
      intro hk
      rw [if_pos hk] at h
      omega
    have hrest : eosG rest = 0 := by
      rw [if_neg hg] at h
      omega
    unfold drainRecv
    repeat' split
    · exact ⟨rfl, by rw [eosG_cons, if_neg hg, hrest]⟩
    · have hih := ih (bb ++ [g]) (rem - (g.length : Int)) (t + 1) hrest
      refine ⟨?_, hih.2⟩
      rw [hih.1, eosG_append, eosG_cons, if_neg hg]
      simp [eosG]
    · exact ⟨rfl, by rw [eosG_cons, if_neg hg, hrest]⟩

theorem putBackGo_c4 :
    ∀ (l : List GBucket) (rem : Int), eosG l = 0 →
      ∀ (a b : List GBucket), putBackGo l rem = some (a, b) →
        eosG a = 0 ∧ eosG b = 0 := by
  intro l
  induction l with
  | nil => intro rem h a b ht; exact Option.noConfusion ht
  | cons g rest ih =>
    intro rem h a b ht
    rw [eosG_cons] at h
    have hg : ¬ g.kind = GKind.eos := by
      intro hk
      rw [if_pos hk] at h
      omega
    have hrest : eosG rest = 0 := by
      rw [if_neg hg] at h
      omega
    unfold putBackGo at ht
    dsimp only at ht
    split at ht
    · injection ht with ht
      rw [Prod.mk.injEq] at ht
      obtain ⟨ha, hb⟩ := ht
      subst ha
      subst hb
      constructor
      · rw [eosG_cons]
        simp [eosG, hg]
      · rw [eosG_cons]
        simp [hg, hrest]
    · split at ht
      · rename_i bb2 rbuf heq
        injection ht with ht
        rw [Prod.mk.injEq] at ht
        obtain ⟨ha, hb⟩ := ht
        subst ha
        subst hb
        have hih := ih _ hrest _ _ heq
        constructor
        · rw [eosG_cons, if_neg hg, hih.1]
        · exact hih.2
      · exact Option.noConfusion ht


/-- What one send-drain call guarantees, in terms of the caller's view:
`cs`/`closed`/`aborted`/`rb` are the relevant fields at entry, `l` the list
being drained, `bb` the destination brigade at entry, `r` the result. -/
def dsgP (cs closed aborted : Bool) (rb : Option (List GBucket)) (l : List Bucket)
    (bb : List GBucket) (ry : Int) (r : Beam × List GBucket × Int × Nat) : Prop :=
  eosG r.2.1 + cs.toNat = eosG bb + r.1.close_sent.toNat ∧
  (r.1.close_sent = true → r.1.send_list = []) ∧
  r.1.closed = closed ∧
  r.1.aborted = aborted ∧
  r.1.recv_buffer = rb ∧
  eosB r.1.send_list.dropLast = 0 ∧
  (0 < eosB r.1.send_list → 0 < eosB l) ∧
  eosB r.1.send_list ≤ eosB l ∧
  (0 < ry → r.1.close_sent = true → cs = false → 0 ≤ r.2.2.1) ∧
  (r.1.close_sent = true → cs = true ∨ 0 < eosB l)

theorem drainSendGo_nil (ry : Int) (bp : Option Nat) (s : Beam) (bb : List GBucket)
    (rem : Int) (t : Nat) : drainSendGo ry bp [] s bb rem t = (s, bb, rem, t) := rfl

theorem dsgP_step_nonEos {cs closed aborted : Bool} {rb : Option (List GBucket)}
    {b : Bucket} {rest : List Bucket} {bb bb2 : List GBucket} {ry : Int}
    {r : Beam × List GBucket × Int × Nat}
    (hih : dsgP cs closed aborted rb rest bb2 ry r)
    (hg : eosG bb2 = eosG bb) (hbne : ¬ b.kind = BKind.eos) :
    dsgP cs closed aborted rb (b :: rest) bb ry r := by
  obtain ⟨i1, i2, i3, i4, i5, i6, i7, i8, i9, i10⟩ := hih
  rw [hg] at i1
  refine ⟨i1, i2, i3, i4, i5, i6, ?_, ?_, i9, ?_⟩
  · intro hp
    have := i7 hp
    rw [eosB_cons]
    omega
  · rw [eosB_cons]
    omega
  · intro h1
    rcases i10 h1 with h | h
    · exact Or.inl h
    · refine Or.inr ?_
      rw [eosB_cons]
      omega

theorem dsgP_stall (s : Beam) (b : Bucket) (rest : List Bucket) (bb : List GBucket)
    (ry rem : Int) (t : Nat) (hsync : s.send_list = b :: rest)
    (hlast : eosB ((b :: rest).dropLast) = 0) (hcsf : s.close_sent = false) :
    dsgP s.close_sent s.closed s.aborted s.recv_buffer (b :: rest) bb ry
      (s, bb, rem, t) := by
  refine ⟨rfl, ?_, rfl, rfl, rfl, ?_, ?_, ?_, ?_, ?_⟩
  · intro hh
    rw [hcsf] at hh
    exact Bool.noConfusion hh
  · rw [hsync]
    exact hlast
  · intro hp
    rw [hsync] at hp
    exact hp
  · rw [hsync]
  · intro _ hh _
    rw [hcsf] at hh
    exact Bool.noConfusion hh
  · intro hh
    rw [hcsf] at hh
    exact Bool.noConfusion hh

theorem drainSendGo_c4 (ry : Int) (bp : Option Nat) :
    ∀ (l : List Bucket) (s : Beam) (bb : List GBucket) (rem : Int) (t : Nat),
      s.send_list = l → eosB l.dropLast = 0 → (s.close_sent = true → l = []) →
      dsgP s.close_sent s.closed s.aborted s.recv_buffer l bb ry
        (drainSendGo ry bp l s bb rem t) := by
  intro l
  induction l with
  | nil =>
    intro s bb rem t hsync hlast hcs
    rw [drainSendGo_nil]
    refine ⟨rfl, fun _ => hsync, rfl, rfl, rfl, ?_, ?_, ?_, ?_, fun h => Or.inl h⟩
    · rw [hsync]
      exact hlast
    · rw [hsync]
      exact id
    · rw [hsync]
    · intro _ hh hcc
      rw [hcc] at hh
      exact Bool.noConfusion hh
  | cons b rest ih =>
    intro s bb rem t hsync hlast hcs
    have hcsf : s.close_sent = false := by
      cases hv : s.close_sent
      · rfl
      · exact absurd (hcs hv) (by simp)
    have hcs2 : ∀ (z : Beam), z.close_sent = s.close_sent →
        z.close_sent = true → rest = [] := by
      intro z hz hh
      rw [hz, hcsf] at hh
      exact Bool.noConfusion hh
    unfold drainSendGo
    split
    · rename_i hguard
      split
      · exact dsgP_stall s b rest bb ry rem t hsync hlast hcsf
      · cases hk : b.kind with
        | eos =>
          dsimp only
          have hrest : rest = [] := eosB_head_eos_last b rest hk hlast
          subst hrest
          rw [drainSendGo_nil]
          refine ⟨?_, fun _ => rfl, rfl, rfl, rfl, ?_, ?_, ?_, ?_, fun _ => Or.inr ?_⟩
          · rw [eosG_append, hcsf]
            simp [eosG]
          · rfl
          · intro hp
            simp [eosB] at hp
          · exact Nat.zero_le _
          · intro hry _ _
            show (0 : Int) ≤ rem - ((0 : Nat) : Int)
            rcases hguard with h | h <;> omega
          · rw [eosB_cons, if_pos hk]
            omega
        | flush =>
          dsimp only
          exact dsgP_step_nonEos
            (ih _ _ _ _ rfl (eosB_dropLast_cons b rest hlast) (hcs2 _ rfl))
            (by rw [eosG_append]; simp [eosG]) (by rw [hk]; simp)
        | error =>
          dsimp only
          exact dsgP_step_nonEos
            (ih _ _ _ _ rfl (eosB_dropLast_cons b rest hlast) (hcs2 _ rfl))
            (by rw [eosG_append]; simp [eosG]) (by rw [hk]; simp)
        | metaOther =>
          dsimp only
          exact dsgP_step_nonEos
            (ih _ _ _ _ rfl (eosB_dropLast_cons b rest hlast) (hcs2 _ rfl))
            rfl (by rw [hk]; simp)
        | file =>
          dsimp only
          exact dsgP_step_nonEos
            (ih _ _ _ _ rfl (eosB_dropLast_cons b rest hlast) (hcs2 _ rfl))
            (by rw [eosG_append]; simp [eosG]) (by rw [hk]; simp)
        | heap =>
          dsimp only
          exact dsgP_step_nonEos
            (ih _ _ _ _ rfl (eosB_dropLast_cons b rest hlast) (hcs2 _ rfl))
            (by rw [eosG_append]; simp [eosG]) (by rw [hk]; simp)
        | transient =>
          dsimp only
          exact dsgP_step_nonEos
            (ih _ _ _ _ rfl (eosB_dropLast_cons b rest hlast) (hcs2 _ rfl))
            (by rw [eosG_append]; simp [eosG]) (by rw [hk]; simp)
        | pool =>
          dsimp only
          exact dsgP_step_nonEos
            (ih _ _ _ _ rfl (eosB_dropLast_cons b rest hlast) (hcs2 _ rfl))
            (by rw [eosG_append]; simp [eosG]) (by rw [hk]; simp)
        | unknownK =>
          dsimp only
          exact dsgP_step_nonEos
            (ih _ _ _ _ rfl (eosB_dropLast_cons b rest hlast) (hcs2 _ rfl))
            (by rw [eosG_append]; simp [eosG]) (by rw [hk]; simp)
    · exact dsgP_stall s b rest bb ry rem t hsync hlast hcsf


/-- The beam-side invariant backing the end-of-stream guarantee. -/
def C4B (s : Beam) : Prop :=
  eosRB s = 0 ∧
  (s.close_sent = true → s.closed = true) ∧
  (s.aborted = false → s.close_sent = true → s.send_list = []) ∧
  (s.aborted = false → 0 < eosB s.send_list → s.closed = true) ∧
  (s.aborted = false → eosB s.send_list ≤ 1) ∧
  (s.aborted = false → eosB s.send_list.dropLast = 0)

/-- The brigade a receive pass hands to the consumer. -/
def recvOutBB : RecvOut → List GBucket
  | .done _ _ bb => bb
  | .waitNeeded _ bb _ _ => bb

theorem recvOutBB_dispatch (bl : Block) (m : Bool) (s : Beam) (bb : List GBucket)
    (rem : Int) (t : Nat) : recvOutBB (recvDispatch bl m s bb rem t) = bb := by
  unfold recvDispatch
  repeat' split
  all_goals rfl

theorem receiveGo_nil_bb (bp : Option Nat) (bl : Block) (ry : Int) (m : Bool)
    (s : Beam) (bb : List GBucket) (rem : Int) (t : Nat) :
    (receiveGo bp bl ry m [] s bb rem t).2.2 =
      recvOutBB (receivePass bp bl ry m s bb rem t) := by
  unfold receiveGo
  cases hp : receivePass bp bl ry m s bb rem t <;> simp [recvOutBB]

theorem recvDrainBuf_c4 (ry : Int) (s : Beam) (bb : List GBucket) (rem : Int)
    (t : Nat) (hfree : eosRB s = 0) (hbb : eosG bb = 0) :
    eosG (recvDrainBuf ry s bb rem t).2.1 = 0 ∧
    eosRB (recvDrainBuf ry s bb rem t).1 = 0 ∧
    (recvDrainBuf ry s bb rem t).1.send_list = s.send_list ∧
    (recvDrainBuf ry s bb rem t).1.close_sent = s.close_sent ∧
    (recvDrainBuf ry s bb rem t).1.closed = s.closed ∧
    (recvDrainBuf ry s bb rem t).1.aborted = s.aborted := by
  unfold recvDrainBuf
  split
  · rename_i l heq
    have hl : eosG l = 0 := by
      unfold eosRB at hfree
      rw [heq] at hfree
      exact hfree
    have hd := drainRecv_c4 ry l bb rem t hl
    refine ⟨by rw [hd.1]; exact hbb, ?_, rfl, rfl, rfl, rfl⟩
    unfold eosRB
    dsimp only
    exact hd.2
  · exact ⟨hbb, hfree, rfl, rfl, rfl, rfl⟩

theorem recvPutBack_send_list (ry : Int) (s : Beam) (bb : List GBucket) (rem : Int) :
    (recvPutBack ry s bb rem).1.send_list = s.send_list := by
  unfold recvPutBack
  repeat' split
  all_goals rfl

theorem recvPutBack_close_sent (ry : Int) (s : Beam) (bb : List GBucket) (rem : Int) :
    (recvPutBack ry s bb rem).1.close_sent = s.close_sent := by
  unfold recvPutBack
  repeat' split
  all_goals rfl

theorem recvPutBack_closed (ry : Int) (s : Beam) (bb : List GBucket) (rem : Int) :
    (recvPutBack ry s bb rem).1.closed = s.closed := by
  unfold recvPutBack
  repeat' split
  all_goals rfl

theorem recvPutBack_aborted (ry : Int) (s : Beam) (bb : List GBucket) (rem : Int) :
    (recvPutBack ry s bb rem).1.aborted = s.aborted := by
  unfold recvPutBack
  repeat' split
  all_goals rfl

theorem recvPutBack_c4 (ry : Int) (s : Beam) (bb : List GBucket) (rem : Int)
    (hfree : eosRB s = 0) (hbb : eosG bb = 0) :
    eosG (recvPutBack ry s bb rem).2 = 0 ∧ eosRB (recvPutBack ry s bb rem).1 = 0 := by
  unfold recvPutBack
  split
  · split
    · rename_i bb2 rbuf heq
      have hp := putBackGo_c4 bb ry hbb bb2 rbuf heq
      exact ⟨hp.1, by unfold eosRB; dsimp only; exact hp.2⟩
    · exact ⟨hbb, hfree⟩
  · exact ⟨hbb, hfree⟩

theorem recvStep5_c4 (s : Beam) (bb : List GBucket) (t : Nat)
    (hsend : s.close_sent = true → s.send_list = []) :
    eosG (recvStep5 s bb t).2.1 + s.close_sent.toNat =
        eosG bb + (recvStep5 s bb t).1.close_sent.toNat ∧
    (recvStep5 s bb t).1.closed = s.closed ∧
    (recvStep5 s bb t).1.aborted = s.aborted ∧
    (recvStep5 s bb t).1.recv_buffer = s.recv_buffer ∧
    (recvStep5 s bb t).1.send_list = s.send_list ∧
    ((recvStep5 s bb t).1.close_sent = true → (recvStep5 s bb t).1.send_list = []) ∧
    ((recvStep5 s bb t).1.close_sent = true →
      s.close_sent = true ∨ s.closed = true) := by
  unfold recvStep5
  split
  · rename_i hcond
    split
    · rename_i hncs
      have hcsf : s.close_sent = false := by
        revert hncs
        cases s.close_sent <;> simp
      have hempty : s.send_list = [] := by
        simp only [Bool.and_eq_true] at hcond
        cases hsl : s.send_list
        · rfl
        · rw [hsl] at hcond
          simp at hcond
      refine ⟨?_, rfl, rfl, rfl, rfl, fun _ => hempty, fun _ => Or.inr ?_⟩
      · rw [eosG_append, hcsf]
        simp [eosG]
      · simp only [Bool.and_eq_true] at hcond
        exact hcond.1.1
    · exact ⟨rfl, rfl, rfl, rfl, rfl, hsend, fun h => Or.inl h⟩
  · exact ⟨rfl, rfl, rfl, rfl, rfl, hsend, fun h => Or.inl h⟩


theorem receivePass_c4 (bp : Option Nat) (bl : Block) (ry : Int) (m : Bool) (s : Beam)
    (hab : s.aborted = false) (hinv : C4B s) :
    eosG (recvOutBB (receivePass bp bl ry m s [] ry 0)) + s.close_sent.toNat =
        (recvOutState (receivePass bp bl ry m s [] ry 0)).close_sent.toNat ∧
    C4B (recvOutState (receivePass bp bl ry m s [] ry 0)) ∧
    (recvOutState (receivePass bp bl ry m s [] ry 0)).aborted = false := by
  obtain ⟨hA, hC, hD, hE, hF, hG⟩ := hinv
  unfold receivePass
  rw [if_neg (by rw [hab]; simp)]
  dsimp only
  unfold drainSend
  rw [recvOutState_dispatch, recvOutBB_dispatch]
  set s1 : Beam := beam_set_recv_pool s bp with hs1
  set r1 := recvDrainBuf ry s1 [] ry 0 with hr1
  set r2 := drainSendGo ry bp r1.1.send_list r1.1 r1.2.1 r1.2.2.1 r1.2.2.2 with hr2
  set pb := recvPutBack ry r2.1 r2.2.1 r2.2.2.1 with hpb
  set st5 := recvStep5 pb.1 pb.2 r2.2.2.2 with hst5
  have hs1sl : s1.send_list = s.send_list := beam_set_recv_pool_send_list s bp
  have hs1cs : s1.close_sent = s.close_sent := beam_set_recv_pool_close_sent s bp
  have hs1cl : s1.closed = s.closed := beam_set_recv_pool_closed s bp
  have hs1ab : s1.aborted = s.aborted := beam_set_recv_pool_aborted s bp
  have hA1 : eosRB s1 = 0 := by
    unfold eosRB
    rw [beam_set_recv_pool_recv_buffer]
    exact hA
  have hd1 := recvDrainBuf_c4 ry s1 [] ry 0 hA1 rfl
  rw [← hr1] at hd1
  obtain ⟨hd1bb, hd1rb, hd1sl, hd1cs, hd1cl, hd1ab⟩ := hd1
  have hcs1 : r1.1.close_sent = s.close_sent := hd1cs.trans hs1cs
  have hsl1 : r1.1.send_list = s.send_list := hd1sl.trans hs1sl
  have hcl1 : r1.1.closed = s.closed := hd1cl.trans hs1cl
  have hab1 : r1.1.aborted = s.aborted := hd1ab.trans hs1ab
  have hlast2 : eosB r1.1.send_list.dropLast = 0 := by
    rw [hsl1]
    exact hG hab
  have hcs2 : r1.1.close_sent = true → r1.1.send_list = [] := by
    intro hh
    rw [hsl1]
    exact hD hab (by rw [← hcs1]; exact hh)
  have hds := drainSendGo_c4 ry bp r1.1.send_list r1.1 r1.2.1 r1.2.2.1 r1.2.2.2
    rfl hlast2 hcs2
  rw [← hr2] at hds
  obtain ⟨g1, g2, g3, g4, g5, g6, g7, g8, g9, g10⟩ := hds
  rw [hd1bb, hcs1] at g1
  have hrb2 : eosRB r2.1 = 0 := by
    unfold eosRB
    rw [g5]
    exact hd1rb
  have hpb_cs : pb.1.close_sent = r2.1.close_sent := by
    rw [hpb]
    exact recvPutBack_close_sent ry r2.1 r2.2.1 r2.2.2.1
  have hpb_sl : pb.1.send_list = r2.1.send_list := by
    rw [hpb]
    exact recvPutBack_send_list ry r2.1 r2.2.1 r2.2.2.1
  have hpb_cl : pb.1.closed = r2.1.closed := by
    rw [hpb]
    exact recvPutBack_closed ry r2.1 r2.2.1 r2.2.2.1
  have hpb_ab : pb.1.aborted = r2.1.aborted := by
    rw [hpb]
    exact recvPutBack_aborted ry r2.1 r2.2.1 r2.2.2.1
  have hpb_main : eosG pb.2 + s.close_sent.toNat = pb.1.close_sent.toNat ∧
      eosRB pb.1 = 0 := by
    by_cases hfire : 0 < ry ∧ r2.2.2.1 < 0
    · have hcseq : r2.1.close_sent = s.close_sent := by
        cases hv : s.close_sent
        · cases hv2 : r2.1.close_sent
          · rfl
          · exfalso
            have h9 := g9 hfire.1 hv2 (by rw [hcs1]; exact hv)
            omega
        · cases hv2 : r2.1.close_sent
          · exfalso
            rw [hv, hv2] at g1
            simp [Bool.toNat] at g1
          · rfl
      have hbbfree : eosG r2.2.1 = 0 := by
        rw [hcseq] at g1
        omega
      have hput := recvPutBack_c4 ry r2.1 r2.2.1 r2.2.2.1 hrb2 hbbfree
      rw [← hpb] at hput
      refine ⟨?_, hput.2⟩
      rw [hput.1, hpb_cs, hcseq]
      omega
    · have hpbeq : pb = (r2.1, r2.2.1) := by
        rw [hpb]
        unfold recvPutBack
        rw [if_neg hfire]
      rw [hpbeq]
      exact ⟨by dsimp only; omega, hrb2⟩
  have hsend5 : pb.1.close_sent = true → pb.1.send_list = [] := by
    intro hh
    rw [hpb_sl]
    exact g2 (by rw [← hpb_cs]; exact hh)
  have hs5 := recvStep5_c4 pb.1 pb.2 r2.2.2.2 hsend5
  rw [← hst5] at hs5
  obtain ⟨k1, k2, k3, k4, k5, k6, k7⟩ := hs5
  have hclosed5 : st5.1.closed = s.closed := by
    rw [k2, hpb_cl, g3, hcl1]
  have hab5 : st5.1.aborted = s.aborted := by
    rw [k3, hpb_ab, g4, hab1]
  refine ⟨?_, ⟨?_, ?_, ?_, ?_, ?_, ?_⟩, by rw [hab5]; exact hab⟩
  · omega
  · unfold eosRB
    rw [k4]
    exact hpb_main.2
  · intro hh
    rw [hclosed5]
    rcases k7 hh with h | h
    · rcases g10 (by rw [← hpb_cs]; exact h) with h2 | h2
      · exact hC (by rw [← hcs1]; exact h2)
      · rw [hsl1] at h2
        exact hE hab h2
    · rw [hpb_cl, g3, hcl1] at h
      exact h
  · intro _ hh
    exact k6 hh
  · intro _ hp
    rw [hclosed5]
    rw [k5, hpb_sl] at hp
    have := g7 hp
    rw [hsl1] at this
    exact hE hab this
  · intro _
    rw [k5, hpb_sl]
    refine Nat.le_trans g8 ?_
    rw [hsl1]
    exact hF hab
  · intro _
    rw [k5, hpb_sl]
    exact g6


theorem eosB_dropLast_le (l : List Bucket) : eosB l.dropLast ≤ eosB l :=
  List.Sublist.countP_le _ (List.dropLast_sublist l)

theorem append_bucket_c4_eos (s : Beam) (b : Bucket) (bl : Block) (m : Bool)
    (hb : b.kind = BKind.eos) :
    (append_bucket s b bl m []).1 = .success ∧
    eosB (append_bucket s b bl m []).2.1.send_list = eosB s.send_list + 1 ∧
    (append_bucket s b bl m []).2.1.send_list.dropLast = s.send_list ∧
    (append_bucket s b bl m []).2.1.closed = true ∧
    (append_bucket s b bl m []).2.2.1 = none ∧
    (append_bucket s b bl m []).2.1.close_sent = s.close_sent ∧
    (append_bucket s b bl m []).2.1.recv_buffer = s.recv_buffer ∧
    (append_bucket s b bl m []).2.1.aborted = s.aborted ∧
    (append_bucket s b bl m []).2.2.2 = [] := by
  unfold append_bucket
  rw [if_pos (show b.kind.isMeta = true by rw [hb]; rfl)]
  dsimp only
  rw [if_pos hb]
  refine ⟨rfl, ?_, ?_, rfl, rfl, rfl, rfl, rfl, rfl⟩
  · rw [eosB_append, eosB_cons, if_pos hb]
    rfl
  · exact List.dropLast_concat ..

theorem normalizeAdmit_lo (s2 : Beam) (b2 : Bucket) (sp : Nat) (orc : List WaitEv)
    (hb2 : ¬ b2.kind = BKind.eos) (t2 : Bucket) :
    (normalizeAdmit s2 b2 sp orc).2.2.1 = some t2 → ¬ t2.kind = BKind.eos := by
  intro ht
  unfold normalizeAdmit fallbackRead admitBucket at ht
  dsimp only at ht
  repeat' split at ht
  all_goals try dsimp only at ht
  all_goals
    first
      | exact Option.noConfusion ht
      | (injection ht with ht
         subst ht
         exact hb2)

theorem normalizeAdmit_c4 (s2 : Beam) (b2 : Bucket) (sp : Nat) (orc : List WaitEv)
    (hb2 : ¬ b2.kind = BKind.eos) :
    eosB (normalizeAdmit s2 b2 sp orc).2.1.send_list = eosB s2.send_list ∧
    (normalizeAdmit s2 b2 sp orc).2.1.closed = s2.closed ∧
    (normalizeAdmit s2 b2 sp orc).2.1.close_sent = s2.close_sent ∧
    (normalizeAdmit s2 b2 sp orc).2.1.recv_buffer = s2.recv_buffer ∧
    (normalizeAdmit s2 b2 sp orc).2.1.aborted = s2.aborted ∧
    (normalizeAdmit s2 b2 sp orc).2.2.2 = orc := by
  unfold normalizeAdmit fallbackRead admitBucket materializeRead
  dsimp only
  repeat' split
  all_goals refine ⟨?_, rfl, rfl, rfl, rfl, rfl⟩
  all_goals first
    | rfl
    | (rw [eosB_append]
       simp [eosB, List.countP_cons, hb2])

theorem append_bucket_c4_nonEos_lo (s : Beam) (b : Bucket) (bl : Block) (m : Bool)
    (hb : ¬ b.kind = BKind.eos) (t2 : Bucket) :
    (append_bucket s b bl m []).2.2.1 = some t2 → ¬ t2.kind = BKind.eos := by
  intro ht
  have hbm : ¬ (materializeRead b).kind = BKind.eos := by
    unfold materializeRead
    split
    · exact hb
    · exact hb
  unfold append_bucket at ht
  by_cases hm : b.kind.isMeta = true
  · rw [if_pos hm] at ht
    dsimp only at ht
    exact Option.noConfusion ht
  · rw [if_neg hm] at ht
    dsimp only at ht
    by_cases hf : b.kind = BKind.file
    · rw [if_pos hf] at ht
      exact normalizeAdmit_lo s b 0 [] hb t2 ht
    · rw [if_neg hf] at ht
      repeat' split at ht
      all_goals try dsimp only at ht
      all_goals first
        | exact Option.noConfusion ht
        | exact normalizeAdmit_lo _ _ _ _ hbm t2 ht
        | exact normalizeAdmit_lo _ _ _ _ hb t2 ht

theorem append_bucket_c4_nonEos (s : Beam) (b : Bucket) (bl : Block) (m : Bool)
    (hb : ¬ b.kind = BKind.eos) :
    eosB (append_bucket s b bl m []).2.1.send_list = eosB s.send_list ∧
    (append_bucket s b bl m []).2.1.closed = s.closed ∧
    (append_bucket s b bl m []).2.1.close_sent = s.close_sent ∧
    (append_bucket s b bl m []).2.1.recv_buffer = s.recv_buffer ∧
    (append_bucket s b bl m []).2.1.aborted = s.aborted ∧
    (append_bucket s b bl m []).2.2.2 = [] := by
  have hbm : ¬ (materializeRead b).kind = BKind.eos := by
    unfold materializeRead
    split
    · exact hb
    · exact hb
  obtain ⟨hw1, hw2⟩ := r_wait_space_nil bl m s
  unfold append_bucket
  by_cases hm : b.kind.isMeta = true
  · rw [if_pos hm]
    dsimp only
    rw [if_neg hb]
    refine ⟨?_, rfl, rfl, rfl, rfl, rfl⟩
    rw [eosB_append]
    simp [eosB, List.countP_cons, hb]
  · rw [if_neg hm]
    dsimp only
    by_cases hf : b.kind = BKind.file
    · rw [if_pos hf]
      exact normalizeAdmit_c4 s b 0 [] hb
    · rw [if_neg hf, hw1, hw2]
      repeat' split
      all_goals first
        | exact normalizeAdmit_c4 _ _ _ _ hbm
        | exact normalizeAdmit_c4 _ _ _ _ hb
        | exact ⟨rfl, rfl, rfl, rfl, rfl, rfl⟩


/-- What the send loop guarantees about the final beam state, relative to
the entry values of the framed fields and the brigade `l`. -/
def slpC4 (cs closed0 ab : Bool) (rb : Option (List GBucket)) (l : List Bucket)
    (r : Beam) : Prop :=
  eosB r.send_list ≤ eosB l ∧
  eosB r.send_list.dropLast = 0 ∧
  (0 < eosB r.send_list → r.closed = true) ∧
  (closed0 = true → r.closed = true) ∧
  r.close_sent = cs ∧ r.recv_buffer = rb ∧ r.aborted = ab

theorem slpC4_cons {cs closed0 ab : Bool} {rb : Option (List GBucket)} (b : Bucket)
    {rest : List Bucket} {r : Beam} (hih : slpC4 cs closed0 ab rb rest r) :
    slpC4 cs closed0 ab rb (b :: rest) r := by
  obtain ⟨h1, h2, h3, h4, h5, h6, h7⟩ := hih
  refine ⟨?_, h2, h3, h4, h5, h6, h7⟩
  refine Nat.le_trans h1 ?_
  rw [eosB_cons]
  omega

theorem slpC4_retape {cs closed0 ab : Bool} {rb : Option (List GBucket)}
    (b tail : Bucket) {rest : List Bucket} {r : Beam}
    (htne : ¬ tail.kind = BKind.eos)
    (hih : slpC4 cs closed0 ab rb (tail :: rest) r) :
    slpC4 cs closed0 ab rb (b :: rest) r := by
  obtain ⟨h1, h2, h3, h4, h5, h6, h7⟩ := hih
  refine ⟨?_, h2, h3, h4, h5, h6, h7⟩
  rw [eosB_cons, if_neg htne] at h1
  rw [eosB_cons]
  omega

theorem eosB_dropLast_cons_ne (tail : Bucket) (rest : List Bucket)
    (htne : ¬ tail.kind = BKind.eos) (h : eosB rest.dropLast = 0) :
    eosB ((tail :: rest).dropLast) = 0 := by
  cases rest with
  | nil => rfl
  | cons c rs =>
    rw [show (tail :: c :: rs).dropLast = tail :: (c :: rs).dropLast from rfl,
      eosB_cons, if_neg htne]
    omega

theorem sendLoopF_nil (bl : Block) (m : Bool) (n : Nat) (s : Beam)
    (orc : List WaitEv) : sendLoopF bl m n s [] orc = (.success, s) := by
  cases n <;> rfl

theorem slpC4_of_free {cs closed0 ab : Bool} {rb : Option (List GBucket)}
    {l : List Bucket} {r : Beam} (hfree : eosB r.send_list = 0)
    (hcl : closed0 = true → r.closed = true)
    (hcs : r.close_sent = cs) (hrb : r.recv_buffer = rb) (hab : r.aborted = ab) :
    slpC4 cs closed0 ab rb l r := by
  refine ⟨by rw [hfree]; exact Nat.zero_le _,
    Nat.le_antisymm (hfree ▸ eosB_dropLast_le r.send_list) (Nat.zero_le _),
    ?_, hcl, hcs, hrb, hab⟩
  intro hp
  rw [hfree] at hp
  exact absurd hp (by omega)

theorem sendLoopF_c4 (bl : Block) (m : Bool) :
    ∀ (n : Nat) (s : Beam) (l : List Bucket),
      eosB s.send_list = 0 → eosB l.dropLast = 0 →
      slpC4 s.close_sent s.closed s.aborted s.recv_buffer l
        (sendLoopF bl m n s l []).2 := by
  intro n
  induction n with
  | zero =>
    intro s l hfree hblast
    unfold sendLoopF
    cases l <;> exact slpC4_of_free hfree (fun h => h) rfl rfl rfl
  | succ n ih =>
    intro s l hfree hblast
    cases l with
    | nil =>
      rw [sendLoopF_nil]
      exact slpC4_of_free hfree (fun h => h) rfl rfl rfl
    | cons b rest =>
      show slpC4 s.close_sent s.closed s.aborted s.recv_buffer (b :: rest)
        (match append_bucket s b bl m [] with
          | (.success, s2, none, or2) => sendLoopF bl m n s2 rest or2
          | (.success, s2, some tail, or2) => sendLoopF bl m n s2 (tail :: rest) or2
          | (st, s2, _, _) => (st, s2)).2
      by_cases hbk : b.kind = BKind.eos
      · have hrest : rest = [] := eosB_head_eos_last b rest hbk hblast
        subst hrest
        have he := append_bucket_c4_eos s b bl m hbk
        rcases happ : append_bucket s b bl m [] with ⟨st, s2, lo, or2⟩
        rw [happ] at he
        dsimp only at he
        obtain ⟨hest, he1, he2, he3, he4, he5, he6, he7, he8⟩ := he
        subst hest
        subst he4
        subst he8
        dsimp only
        rw [sendLoopF_nil]
        refine ⟨?_, ?_, fun _ => he3, fun _ => he3, he5, he6, he7⟩
        · rw [he1, hfree, eosB_cons, if_pos hbk]
          simp [eosB]
        · rw [he2]
          exact hfree
      · have he := append_bucket_c4_nonEos s b bl m hbk
        have helo := append_bucket_c4_nonEos_lo s b bl m hbk
        rcases happ : append_bucket s b bl m [] with ⟨st, s2, lo, or2⟩
        rw [happ] at he
        dsimp only at he
        obtain ⟨he1, he2, he3, he4, he5, he6⟩ := he
        subst he6
        have hfree2 : eosB s2.send_list = 0 := by rw [he1]; exact hfree
        cases st <;> cases lo
        · dsimp only
          have hi := ih s2 rest hfree2 (eosB_dropLast_cons b rest hblast)
          rw [he2, he3, he4, he5] at hi
          exact slpC4_cons b hi
        · rename_i tail
          dsimp only
          have htne : ¬ tail.kind = BKind.eos := by
            have h2 := helo tail
            rw [happ] at h2
            exact h2 rfl
          have hi := ih s2 (tail :: rest) hfree2
            (eosB_dropLast_cons_ne tail rest htne (eosB_dropLast_cons b rest hblast))
          rw [he2, he3, he4, he5] at hi
          exact slpC4_retape b tail htne hi
        all_goals exact slpC4_of_free hfree2 (fun h => by rw [he2]; exact h) he3 he4 he5


theorem C4B_rc (x : Beam) (f : Bool) (h : C4B x) : C4B (report_consumption x f) := by
  obtain ⟨h1, h2, h3, h4, h5, h6⟩ := h
  refine ⟨?_, ?_, ?_, ?_, ?_, ?_⟩
  · unfold eosRB
    rw [report_consumption_recv_buffer]
    exact h1
  · intro hh
    rw [report_consumption_close_sent] at hh
    rw [report_consumption_closed]
    exact h2 hh
  · intro ha hh
    rw [report_consumption_aborted] at ha
    rw [report_consumption_close_sent] at hh
    rw [report_consumption_send_list]
    exact h3 ha hh
  · intro ha hp
    rw [report_consumption_aborted] at ha
    rw [report_consumption_send_list] at hp
    rw [report_consumption_closed]
    exact h4 ha hp
  · intro ha
    rw [report_consumption_aborted] at ha
    rw [report_consumption_send_list]
    exact h5 ha
  · intro ha
    rw [report_consumption_aborted] at ha
    rw [report_consumption_send_list]
    exact h6 ha

theorem C4B_rp (x : Beam) (f : Bool) (h : C4B x) : C4B (report_production x f) := by
  obtain ⟨h1, h2, h3, h4, h5, h6⟩ := h
  refine ⟨?_, ?_, ?_, ?_, ?_, ?_⟩
  · unfold eosRB
    rw [report_production_recv_buffer]
    exact h1
  · intro hh
    rw [report_production_close_sent] at hh
    rw [report_production_closed]
    exact h2 hh
  · intro ha hh
    rw [report_production_aborted] at ha
    rw [report_production_close_sent] at hh
    rw [report_production_send_list]
    exact h3 ha hh
  · intro ha hp
    rw [report_production_aborted] at ha
    rw [report_production_send_list] at hp
    rw [report_production_closed]
    exact h4 ha hp
  · intro ha
    rw [report_production_aborted] at ha
    rw [report_production_send_list]
    exact h5 ha
  · intro ha
    rw [report_production_aborted] at ha
    rw [report_production_send_list]
    exact h6 ha

theorem C4B_close (s : Beam) (h : C4B s) :
    C4B (h2_beam_close s).2 ∧
    (h2_beam_close s).2.close_sent = s.close_sent ∧
    ((h2_beam_close s).2.aborted = false → s.aborted = false) := by
  rw [h2_beam_close_eq]
  refine ⟨C4B_rc _ _ ⟨h.1, fun _ => rfl, h.2.2.1, fun _ _ => rfl,
      h.2.2.2.2.1, h.2.2.2.2.2⟩, ?_, ?_⟩
  · rw [report_consumption_close_sent]
  · intro ha
    rw [report_consumption_aborted] at ha
    exact ha

theorem C4B_abort (s : Beam) (h : C4B s) :
    C4B (h2_beam_abort s) ∧
    (h2_beam_abort s).close_sent = s.close_sent ∧
    ((h2_beam_abort s).aborted = false → s.aborted = false) := by
  unfold h2_beam_abort
  split
  · refine ⟨C4B_rc _ _ ⟨h.1, h.2.1, ?_, ?_, ?_, ?_⟩, ?_, ?_⟩
    · intro ha
      exact absurd ha (by simp [r_purge_sent])
    · intro ha
      exact absurd ha (by simp [r_purge_sent])
    · intro ha
      exact absurd ha (by simp [r_purge_sent])
    · intro ha
      exact absurd ha (by simp [r_purge_sent])
    · rw [report_consumption_close_sent]
      rfl
    · intro ha
      rw [report_consumption_aborted] at ha
      exact absurd ha (by simp [r_purge_sent])
  · exact ⟨h, rfl, fun ha => ha⟩

theorem C4B_waitEmpty (s : Beam) (bl : Block) (h : C4B s) :
    C4B (h2_beam_wait_empty s bl []).2 ∧
    (h2_beam_wait_empty s bl []).2.close_sent = s.close_sent ∧
    ((h2_beam_wait_empty s bl []).2.aborted = false → s.aborted = false) := by
  unfold h2_beam_wait_empty
  rw [waitEmptyGo_nil_state]
  exact ⟨h, rfl, fun ha => ha⟩

theorem C4B_emitted (s : Beam) (i : Nat) (h : C4B s) :
    C4B (h2_beam_emitted s i).1 ∧
    (h2_beam_emitted s i).1.close_sent = s.close_sent ∧
    ((h2_beam_emitted s i).1.aborted = false → s.aborted = false) := by
  unfold h2_beam_emitted r_purge_sent
  dsimp only
  repeat' split
  all_goals dsimp only
  all_goals exact ⟨h, rfl, fun ha => ha⟩

theorem C4B_send_none (s : Beam) (bl : Block) (h : C4B s) :
    C4B (h2_beam_send s none bl []).2 ∧
    (h2_beam_send s none bl []).2.close_sent = s.close_sent ∧
    ((h2_beam_send s none bl []).2.aborted = false → s.aborted = false) := by
  unfold h2_beam_send r_purge_sent
  dsimp only
  split
  all_goals refine ⟨C4B_rc _ _ h, ?_, ?_⟩
  · simp [report_consumption_close_sent]
  · intro ha
    rw [report_consumption_aborted] at ha
    exact ha
  · simp [report_consumption_close_sent]
  · intro ha
    rw [report_consumption_aborted] at ha
    exact ha


theorem r_purge_sent_close_sent (s : Beam) :
    (r_purge_sent s).close_sent = s.close_sent := rfl

theorem r_purge_sent_closed (s : Beam) : (r_purge_sent s).closed = s.closed := rfl

theorem r_purge_sent_aborted (s : Beam) : (r_purge_sent s).aborted = s.aborted := rfl

theorem r_purge_sent_recv_buffer (s : Beam) :
    (r_purge_sent s).recv_buffer = s.recv_buffer := rfl

theorem r_purge_sent_send_list (s : Beam) :
    (r_purge_sent s).send_list = s.send_list := rfl

theorem C4B_send_some (s : Beam) (br : List Bucket) (p : Option Nat) (bl : Block)
    (h : C4B s) (hcl : s.closed = false) (hbr1 : eosB br ≤ 1)
    (hbrl : eosB br.dropLast = 0) :
    C4B (h2_beam_send s (some (br, p)) bl []).2 ∧
    (h2_beam_send s (some (br, p)) bl []).2.close_sent = s.close_sent ∧
    ((h2_beam_send s (some (br, p)) bl []).2.aborted = false → s.aborted = false) := by
  unfold h2_beam_send
  dsimp only
  split
  · -- aborted dump path
    rename_i habt
    have habX : (move_to_hold (beam_set_send_pool (r_purge_sent s) p) br).aborted
        = true := by
      unfold move_to_hold
      dsimp only
      exact habt
    refine ⟨C4B_rc _ _ ⟨?_, ?_, ?_, ?_, ?_, ?_⟩, ?_, ?_⟩
    · unfold eosRB move_to_hold
      dsimp only
      rw [beam_set_send_pool_recv_buffer]
      exact h.1
    · intro hc
      have hc2 : s.close_sent = true := by
        have := hc
        unfold move_to_hold at this
        dsimp only at this
        rw [beam_set_send_pool_close_sent] at this
        exact this
      have hcl2 := h.2.1 hc2
      unfold move_to_hold
      dsimp only
      rw [beam_set_send_pool_closed]
      exact hcl2
    · intro ha
      rw [habX] at ha
      exact Bool.noConfusion ha
    · intro ha
      rw [habX] at ha
      exact Bool.noConfusion ha
    · intro ha
      rw [habX] at ha
      exact Bool.noConfusion ha
    · intro ha
      rw [habX] at ha
      exact Bool.noConfusion ha
    · rw [report_consumption_close_sent]
      unfold move_to_hold
      dsimp only
      rw [beam_set_send_pool_close_sent]
      rfl
    · intro ha
      rw [report_consumption_aborted, habX] at ha
      exact Bool.noConfusion ha
  · -- live path: run the loop, then report production and consumption
    rename_i habt
    have habf : s.aborted = false := by
      revert habt
      rw [beam_set_send_pool_aborted]
      unfold r_purge_sent
      dsimp only
      cases s.aborted <;> simp
    have hfree : eosB s.send_list = 0 := by
      by_contra hne
      have := h.2.2.2.1 habf (Nat.pos_of_ne_zero hne)
      rw [hcl] at this
      exact Bool.noConfusion this
    have hfreeq : eosB (beam_set_send_pool (r_purge_sent s) p).send_list = 0 := by
      rw [beam_set_send_pool_send_list]
      exact hfree
    have hloop := sendLoopF_c4 bl s.hasEnter (sendFuel br)
      (beam_set_send_pool (r_purge_sent s) p) br hfreeq hbrl
    rw [show sendLoopF bl s.hasEnter (sendFuel br)
          (beam_set_send_pool (r_purge_sent s) p) br [] =
        sendLoop bl s.hasEnter (beam_set_send_pool (r_purge_sent s) p) br []
        from rfl] at hloop
    rw [beam_set_send_pool_close_sent, beam_set_send_pool_closed,
      beam_set_send_pool_aborted, beam_set_send_pool_recv_buffer,
      r_purge_sent_close_sent, r_purge_sent_closed, r_purge_sent_aborted,
      r_purge_sent_recv_buffer] at hloop
    obtain ⟨l1, l2, l3, l4, l5, l6, l7⟩ := hloop
    refine ⟨C4B_rc _ _ (C4B_rp _ _ ⟨?_, ?_, ?_, ?_, ?_, ?_⟩), ?_, ?_⟩
    · unfold eosRB
      rw [l6]
      exact h.1
    · intro hc
      rw [l5] at hc
      exact absurd (h.2.1 hc) (by rw [hcl]; simp)
    · intro _ hc
      rw [l5] at hc
      exact absurd (h.2.1 hc) (by rw [hcl]; simp)
    · intro _ hp
      exact l3 hp
    · intro _
      exact Nat.le_trans l1 hbr1
    · intro _
      exact l2
    · rw [report_consumption_close_sent, report_production_close_sent]
      exact l5
    · intro _
      exact habf


/-- Trace state for the end-of-stream argument: the beam plus the number of
end-of-stream buckets handed to the consumer so far. -/
structure MState where
  beam : Beam
  delivered : Nat
  deriving Repr

/-- One API call; receives are entered with a fresh empty consumer brigade,
and the end-of-stream buckets in the returned brigade count as delivered. -/
def stepM (m : MState) : Op → MState
  | .receive bp bl ry =>
    ⟨(h2_beam_receive m.beam [] bp bl ry []).2.1,
     m.delivered + eosG (h2_beam_receive m.beam [] bp bl ry []).2.2⟩
  | op => ⟨stepOp m.beam op, m.delivered⟩

def runM (m : MState) : List Op → MState
  | [] => m
  | op :: rest => runM (stepM m op) rest

/-- Legality: a producer only sends while the beam is open, with at most one
end-of-stream bucket, placed last — exactly how the HTTP/2 code uses it. -/
def LegalOp (m : MState) : Op → Prop
  | .send (some (br, _)) _ =>
    m.beam.closed = false ∧ eosB br ≤ 1 ∧ eosB br.dropLast = 0
  | _ => True

def LegalTrace : MState → List Op → Prop
  | _, [] => True
  | m, op :: rest => LegalOp m op ∧ LegalTrace (stepM m op) rest

/-- The end-of-stream invariant of the trace machine. -/
def C4Inv (m : MState) : Prop :=
  C4B m.beam ∧
  (m.beam.aborted = false → m.delivered = m.beam.close_sent.toNat) ∧
  m.delivered ≤ m.beam.close_sent.toNat

theorem eosRB_clear (s : Beam) :
    eosRB { s with recv_buffer := s.recv_buffer.map fun _ => ([] : List GBucket) }
      = 0 := by
  unfold eosRB
  cases s.recv_buffer <;> rfl

theorem C4Inv_of_parts {m : MState} {s2 : Beam}
    (hB2 : C4B s2) (hcs : s2.close_sent = m.beam.close_sent)
    (habp : s2.aborted = false → m.beam.aborted = false)
    (hEq : m.beam.aborted = false → m.delivered = m.beam.close_sent.toNat)
    (hLe : m.delivered ≤ m.beam.close_sent.toNat) :
    C4Inv ⟨s2, m.delivered⟩ :=
  ⟨hB2, fun hf => by rw [hcs]; exact hEq (habp hf), by rw [hcs]; exact hLe⟩

theorem C4Inv_step (m : MState) (op : Op) (h : C4Inv m) (hleg : LegalOp m op) :
    C4Inv (stepM m op) := by
  obtain ⟨hB, hEq, hLe⟩ := h
  cases op with
  | receive bp bl ry =>
    rw [show stepM m (Op.receive bp bl ry) =
        ⟨(h2_beam_receive m.beam [] bp bl ry []).2.1,
         m.delivered + eosG (h2_beam_receive m.beam [] bp bl ry []).2.2⟩ from rfl]
    have hst : (h2_beam_receive m.beam [] bp bl ry []).2.1 =
        recvOutState (receivePass bp bl ry m.beam.hasEnter m.beam [] ry 0) := by
      unfold h2_beam_receive
      exact receiveGo_nil_state ..
    have hbb : (h2_beam_receive m.beam [] bp bl ry []).2.2 =
        recvOutBB (receivePass bp bl ry m.beam.hasEnter m.beam [] ry 0) := by
      unfold h2_beam_receive
      exact receiveGo_nil_bb ..
    rw [hst, hbb]
    cases hab : m.beam.aborted
    · have hp := receivePass_c4 bp bl ry m.beam.hasEnter m.beam hab hB
      have hcount := hp.1
      refine ⟨hp.2.1, ?_, ?_⟩
      · intro _
        show m.delivered +
            eosG (recvOutBB (receivePass bp bl ry m.beam.hasEnter m.beam [] ry 0)) =
          (recvOutState
            (receivePass bp bl ry m.beam.hasEnter m.beam [] ry 0)).close_sent.toNat
        rw [hEq hab]
        omega
      · show m.delivered +
            eosG (recvOutBB (receivePass bp bl ry m.beam.hasEnter m.beam [] ry 0)) ≤
          (recvOutState
            (receivePass bp bl ry m.beam.hasEnter m.beam [] ry 0)).close_sent.toNat
        omega
    · have hpass : receivePass bp bl ry m.beam.hasEnter m.beam [] ry 0 =
          .done .econnaborted
            { m.beam with
              recv_buffer := m.beam.recv_buffer.map fun _ => ([] : List GBucket) }
            [] :=
        receivePass_aborted bp bl ry m.beam.hasEnter m.beam [] ry 0 hab
      rw [hpass]
      dsimp only [recvOutState, recvOutBB]
      obtain ⟨b1, b2, b3, b4, b5, b6⟩ := hB
      refine ⟨⟨eosRB_clear m.beam, b2, b3, b4, b5, b6⟩, ?_, ?_⟩
      · intro hf
        show m.delivered + eosG [] = m.beam.close_sent.toNat
        have : m.beam.aborted = false := hf
        rw [hab] at this
        exact Bool.noConfusion this
      · show m.delivered + eosG [] ≤ m.beam.close_sent.toNat
        rw [show eosG [] = 0 from rfl]
        omega
  | send rb bl =>
    cases rb with
    | none =>
      have hs := C4B_send_none m.beam bl hB
      exact C4Inv_of_parts hs.1 hs.2.1 hs.2.2 hEq hLe
    | some pr =>
      rcases pr with ⟨br, p⟩
      obtain ⟨hcl, hbr1, hbrl⟩ := hleg
      have hs := C4B_send_some m.beam br p bl hB hcl hbr1 hbrl
      exact C4Inv_of_parts hs.1 hs.2.1 hs.2.2 hEq hLe
  | close =>
    have hs := C4B_close m.beam hB
    exact C4Inv_of_parts hs.1 hs.2.1 hs.2.2 hEq hLe
  | abort =>
    have hs := C4B_abort m.beam hB
    exact C4Inv_of_parts hs.1 hs.2.1 hs.2.2 hEq hLe
  | waitEmpty bl =>
    have hs := C4B_waitEmpty m.beam bl hB
    exact C4Inv_of_parts hs.1 hs.2.1 hs.2.2 hEq hLe
  | emitted i =>
    have hs := C4B_emitted m.beam i hB
    exact C4Inv_of_parts hs.1 hs.2.1 hs.2.2 hEq hLe

theorem C4Inv_run (m : MState) (ops : List Op) (h : C4Inv m)
    (hleg : LegalTrace m ops) : C4Inv (runM m ops) := by
  induction ops generalizing m with
  | nil => exact h
  | cons op rest ih => exact ih _ (C4Inv_step m op h hleg.1) hleg.2


theorem recvStep5_char (s : Beam) (bb : List GBucket) (t : Nat) :
    if s.closed = true ∧ (s.recv_buffer = none ∨ s.recv_buffer = some []) ∧
        s.send_list = [] ∧ s.close_sent = false
    then recvStep5 s bb t =
      ({ s with close_sent := true }, bb ++ [⟨GKind.eos, 0⟩], t + 1)
    else recvStep5 s bb t = (s, bb, t) := by
  split
  · rename_i hc
    obtain ⟨h1, h2, h3, h4⟩ := hc
    unfold recvStep5
    have hcondT : (s.closed &&
        (match s.recv_buffer with
         | none => true
         | some l => l.isEmpty) &&
        s.send_list.isEmpty) = true := by
      rcases h2 with h2 | h2 <;> simp [h1, h2, h3]
    rw [if_pos hcondT, if_pos (show (!s.close_sent) = true by rw [h4]; rfl)]
  · rename_i hc
    unfold recvStep5
    split
    · rename_i hcond
      split
      · rename_i hncs
        exfalso
        apply hc
        simp only [Bool.and_eq_true] at hcond
        refine ⟨hcond.1.1, ?_, ?_, ?_⟩
        · cases hrb : s.recv_buffer with
          | none => exact Or.inl rfl
          | some lg =>
            refine Or.inr ?_
            rw [hrb] at hcond
            have h5 := hcond.1.2
            cases lg with
            | nil => rfl
            | cons g rest => simp at h5
        · cases hsl : s.send_list with
          | nil => rfl
          | cons b rest =>
            rw [hsl] at hcond
            simp at hcond
        · revert hncs
          cases s.close_sent <;> simp
      · rfl
    · rfl

/-- C4: along any legal trace — producers only send on an open beam, with at
most one end-of-stream bucket, placed last, and consumers present an empty
brigade — at most one end-of-stream bucket is ever handed to the consumer;
while the beam is not aborted the number delivered equals the `close_sent`
flag, so exactly one is delivered once `close_sent` is set, and that flag
(hence a delivery) entails the beam was closed, which is precisely the state
an end-of-stream from the producer or a close call establishes.  The extra
marker of step 5 of receive is appended exactly when the beam is closed, the
recv_buffer is missing or empty, the send list is empty, and `close_sent` is
not yet set. -/
theorem C4_eos_delivery (m0 : MState) (ops : List Op) (h0 : C4Inv m0)
    (hleg : LegalTrace m0 ops) :
    (runM m0 ops).delivered ≤ 1 ∧
    ((runM m0 ops).beam.aborted = false →
      (runM m0 ops).delivered = (runM m0 ops).beam.close_sent.toNat) ∧
    ((runM m0 ops).beam.close_sent = true → (runM m0 ops).beam.closed = true) ∧
    (1 ≤ (runM m0 ops).delivered → (runM m0 ops).beam.closed = true) ∧
    (∀ (s : Beam) (bb : List GBucket) (t : Nat),
      if s.closed = true ∧ (s.recv_buffer = none ∨ s.recv_buffer = some []) ∧
          s.send_list = [] ∧ s.close_sent = false
      then recvStep5 s bb t =
        ({ s with close_sent := true }, bb ++ [⟨GKind.eos, 0⟩], t + 1)
      else recvStep5 s bb t = (s, bb, t)) := by
  have hI := C4Inv_run m0 ops h0 hleg
  obtain ⟨hB, hEq2, hLe2⟩ := hI
  have hcap : (runM m0 ops).beam.close_sent.toNat ≤ 1 := by
    cases (runM m0 ops).beam.close_sent <;> decide
  refine ⟨Nat.le_trans hLe2 hcap, hEq2, hB.2.1, ?_, fun s bb t => recvStep5_char s bb t⟩
  intro hd
  have hcs : (runM m0 ops).beam.close_sent = true := by
    cases hv : (runM m0 ops).beam.close_sent
    · rw [hv] at hLe2
      exact absurd (Nat.le_trans hd hLe2) (by decide)
    · rfl
  exact hB.2.1 hcs

/-- A fresh beam and a trace that sends data followed by end-of-stream, then
receives everything. -/
def wC4m0 : MState := ⟨{}, 0⟩

def wC4ops : List Op :=
  [Op.send (some ([{ bid := 0, kind := .heap, length := 3 },
                   { bid := 1, kind := .eos, length := 0 }], none)) .nonblocking,
   Op.receive (some 1) .nonblocking 0,
   Op.receive (some 1) .nonblocking 0,
   Op.close]

/-- C4 witness: the concrete trace is legal, delivers exactly one
end-of-stream bucket, and matches the invariant's accounting. -/
theorem C4_eos_witness :
    C4Inv wC4m0 ∧ LegalTrace wC4m0 wC4ops ∧
    (runM wC4m0 wC4ops).delivered ≤ 1 ∧
    ((runM wC4m0 wC4ops).beam.aborted = false →
      (runM wC4m0 wC4ops).delivered = (runM wC4m0 wC4ops).beam.close_sent.toNat) ∧
    (runM wC4m0 wC4ops).delivered = 1 := by
  have h0 : C4Inv wC4m0 :=
    ⟨⟨rfl, by decide, by decide, by decide, by decide, by decide⟩, by decide, by decide⟩
  have hleg : LegalTrace wC4m0 wC4ops :=
    ⟨⟨by decide, by decide, by decide⟩, trivial, trivial, trivial, trivial⟩
  have h := C4_eos_delivery wC4m0 wC4ops h0 hleg
  exact ⟨h0, hleg, h.1, h.2.1, by decide⟩

end H2Beam
